import Mathlib

/-!
Verification development for the `near-abi-rs` repository.

The development shallowly embeds the repository's data model
(`near-abi/src/lib.rs`), the multi-entry combiner
(`near-abi/src/private.rs`), the version dispatch
(`near-abi/src/legacy/mod.rs`) and the legacy migrations
(`near-abi/src/legacy/migration.rs`).

Conventions of the embedding:
* JSON values (`serde_json::Value`) are the inductive `Json`; numbers are
  modelled as integers (no claim touches floating point payloads).
* `BTreeMap<String, _>` / `BTreeSet<String>` are modelled as key-sorted
  association lists / sorted duplicate-free lists, ordered by the
  byte-lexicographic string order (for UTF-8 strings the byte order agrees
  with the code-point order modelled here).
* Rust panics are modelled explicitly: functions that can panic return
  `Option` (with `none` for a panic) or a dedicated result constructor.
-/

namespace NearAbi



/-- JSON values, the model of `serde_json::Value`.  Objects keep their
fields as an ordered association list, matching the order in which a
serializer emits them. -/
inductive Json where
  | null
  | bool (b : Bool)
  | num (n : Int)
  | str (s : String)
  | arr (elems : List Json)
  | obj (fields : List (String × Json))

/-- Lookup of a key in a JSON object's field list (first occurrence),
the model of `serde_json::Map::get`. -/
def jLookup (k : String) : List (String × Json) → Option Json
  | [] => none
  | (k', v) :: rest => if k' = k then some v else jLookup k rest

/-- Strict code-point lexicographic order on character lists; the model of
Rust's `Ord` on `String` (byte-lexicographic, which agrees with
code-point order for UTF-8). -/
def clLt : List Char → List Char → Bool
  | [], [] => false
  | [], _ :: _ => true
  | _ :: _, [] => false
  | a :: as, b :: bs =>
    if a.toNat < b.toNat then true
    else if b.toNat < a.toNat then false
    else clLt as bs

/-- Strict order on strings, the model of Rust's `String` ordering. -/
def strLtB (a b : String) : Bool := clLt a.data b.data

/-- Insertion into a key-sorted association list, replacing the value when
the key is already present; the model of `BTreeMap::insert` (and, with the
value type `Unit`-like, of `BTreeSet::insert`). -/
def insKV {β : Type} (k : String) (v : β) : List (String × β) → List (String × β)
  | [] => [(k, v)]
  | (k', v') :: rest =>
    if strLtB k k' then (k, v) :: (k', v') :: rest
    else if k = k' then (k, v) :: rest
    else (k', v') :: insKV k v rest

/-- Insertion into a sorted duplicate-free list of strings; the model of
`BTreeSet<String>::insert`. -/
def insStr (k : String) : List String → List String
  | [] => [k]
  | k' :: rest =>
    if strLtB k k' then k :: k' :: rest
    else if k = k' then k' :: rest
    else k' :: insStr k rest

/-- The key order used for sortedness statements about string sets. -/
def strPairLt (a b : String) : Prop := strLtB a b = true

/-- The key order on association-list entries. -/
def kvLt {β : Type} (a b : String × β) : Prop := strLtB a.1 b.1 = true

/-- Stable insertion of an element into a list sorted by `le`. -/
def insLe {α : Type} (le : α → α → Bool) (x : α) : List α → List α
  | [] => [x]
  | y :: ys => if le x y then x :: y :: ys else y :: insLe le x ys

/-- Stable sort by `le`; the model of Rust's stable `sort_by` (any two
stable sorts for a total preorder agree, so insertion sort is a faithful
model of the standard library's merge sort). -/
def sortLe {α : Type} (le : α → α → Bool) (l : List α) : List α :=
  l.foldr (insLe le) []

/-! ## Semantic versions

`semver::Version` restricted to what the repository manipulates. -/

/-- Modelled from the spec: the `semver` crate's `Version` for the plain
`MAJOR.MINOR.PATCH` versions the ABI format uses (pre-release and build
metadata components are never produced by the repository and are not
modelled). Mirrors `SCHEMA_SEMVER` in `near-abi/src/lib.rs`. -/
structure Version where
  major : Nat
  minor : Nat
  patch : Nat
deriving DecidableEq

/-- Splits a character list at every `'.'`. -/
def splitDots : List Char → List (List Char)
  | [] => [[]]
  | c :: cs =>
    if c = '.' then [] :: splitDots cs
    else
      match splitDots cs with
      | [] => [[c]]
      | g :: gs => (c :: g) :: gs

/-- Numeric semver identifier: non-empty, all digits, no leading zero. -/
def decDigits (cs : List Char) : Option Nat :=
  if cs.isEmpty then none
  else if !cs.all Char.isDigit then none
  else if cs.head? = some '0' && cs.length != 1 then none
  else some (cs.foldl (fun n c => n * 10 + (c.toNat - 48)) 0)

/-- Modelled from the spec: `semver::Version::parse` on the plain numeric
`MAJOR.MINOR.PATCH` grammar (no pre-release / build metadata). -/
def parseSemver (s : String) : Option Version :=
  match splitDots s.data with
  | [a, b, c] =>
    match decDigits a, decDigits b, decDigits c with
    | some x, some y, some z => some ⟨x, y, z⟩
    | _, _, _ => none
  | _ => none

/-- Display of a plain semver version (`Display for semver::Version`). -/
def versionToString (v : Version) : String :=
  toString v.major ++ "." ++ toString v.minor ++ "." ++ toString v.patch

/-- Semver precedence on plain versions: lexicographic on
(major, minor, patch). -/
def versionLtB (a b : Version) : Bool :=
  decide (a.major < b.major ∨ (a.major = b.major ∧
    (a.minor < b.minor ∨ (a.minor = b.minor ∧ a.patch < b.patch))))

/-- `SCHEMA_SEMVER` from `near-abi/src/lib.rs`. -/
def SCHEMA_SEMVER : Version := ⟨0, 3, 0⟩

/-- `SCHEMA_VERSION` from `near-abi/src/lib.rs`: current ABI schema
format version. -/
def SCHEMA_VERSION : String := "0.3.0"

/-- `ensure_current_version` from `near-abi/src/lib.rs`: the
`deserialize_with` guard on `AbiRoot.schema_version`.  The embedding takes
the already-extracted string.  (The real "valid semver" error appends the
`semver` crate's own error description, which is not modelled.) -/
def ensure_current_version (unchecked : String) : Except String String :=
  match parseSemver unchecked with
  | none => .error "expected `schema_version` to be a valid semver value"
  | some version =>
    if version.major ≠ SCHEMA_SEMVER.major ∨ version.minor ≠ SCHEMA_SEMVER.minor then
      if versionLtB version SCHEMA_SEMVER then
        .error ("expected `schema_version` to be ~" ++ toString SCHEMA_SEMVER.major ++ "."
          ++ toString SCHEMA_SEMVER.minor ++ ", but got " ++ versionToString version
          ++ ": consider re-generating your ABI file with a newer version of SDK and cargo-near")
      else
        .error ("expected `schema_version` to be ~" ++ toString SCHEMA_SEMVER.major ++ "."
          ++ toString SCHEMA_SEMVER.minor ++ ", but got " ++ versionToString version
          ++ ": consider upgrading near-abi to a newer version")
    else
      .ok unchecked

/-! ## Current-version data model (`near-abi/src/lib.rs`) -/

/-- Modelled from the spec: the JSON-Schema-like type descriptors
(`schemars::schema::Schema` / the root schema value) are opaque,
comparably-equal values the core only moves around (spec §1); they are
represented as raw JSON with identity (de)serialization. -/
def Schema : Type := Json

/-- `borsh::schema::Fields`. -/
inductive Fields where
  | namedFields (fields : List (String × String))
  | unnamedFields (fields : List String)
  | empty

/-- `borsh::schema::Definition`. -/
inductive Definition where
  | array (length : Nat) (elements : String)
  | sequence (elements : String)
  | tuple (elements : List String)
  | enum (variants : List (String × String))
  | struct (fields : Fields)

/-- `borsh::schema::BorshSchemaContainer` as (de)serialized through
`BorshSchemaContainerDef` in `near-abi/src/lib.rs`: a declaration plus a
`BTreeMap` of definitions, modelled as a key-sorted association list. -/
structure BorshSchemaContainer where
  declaration : String
  definitions : List (String × Definition)

/-- `AbiType` from `near-abi/src/lib.rs`. -/
inductive AbiType where
  | json (type_schema : Schema)
  | borsh (type_schema : BorshSchemaContainer)

/-- `AbiJsonParameter` from `near-abi/src/lib.rs`. -/
structure AbiJsonParameter where
  name : String
  type_schema : Schema

/-- `AbiBorshParameter` from `near-abi/src/lib.rs`. -/
structure AbiBorshParameter where
  name : String
  type_schema : BorshSchemaContainer

/-- `AbiParameters` from `near-abi/src/lib.rs`. -/
inductive AbiParameters where
  | json (args : List AbiJsonParameter)
  | borsh (args : List AbiBorshParameter)

/-- `AbiParameters::default`: JSON with no arguments. -/
def AbiParameters.default : AbiParameters := .json []

/-- `AbiParameters::is_empty`. -/
def AbiParameters.is_empty : AbiParameters → Bool
  | .json args => args.isEmpty
  | .borsh args => args.isEmpty

/-- `AbiFunctionKind` from `near-abi/src/lib.rs`. -/
inductive AbiFunctionKind where
  | view
  | call
deriving DecidableEq

/-- `AbiFunctionModifier` from `near-abi/src/lib.rs`. -/
inductive AbiFunctionModifier where
  | init
  | private_
  | payable
deriving DecidableEq

/-- `AbiFunction` from `near-abi/src/lib.rs`. -/
structure AbiFunction where
  name : String
  doc : Option String
  kind : AbiFunctionKind
  modifiers : List AbiFunctionModifier
  params : AbiParameters
  callbacks : List AbiType
  callbacks_vec : Option AbiType
  result : Option AbiType

/-- `BuildInfo` from `near-abi/src/lib.rs`. -/
structure BuildInfo where
  compiler : String
  builder : String
  image : Option String
deriving DecidableEq

/-- `AbiMetadata` from `near-abi/src/lib.rs`.  The flattened
`HashMap<String, String>` field `other` is modelled as its canonical
key-sorted association list. -/
structure AbiMetadata where
  name : Option String
  version : Option String
  authors : List String
  build : Option BuildInfo
  wasm_hash : Option String
  other : List (String × String)
deriving DecidableEq

/-- `AbiBody` from `near-abi/src/lib.rs`. -/
structure AbiBody where
  functions : List AbiFunction
  root_schema : Schema

/-- `AbiRoot` from `near-abi/src/lib.rs`. -/
structure AbiRoot where
  schema_version : String
  metadata : AbiMetadata
  body : AbiBody

/-! ## The combiner (`near-abi/src/private.rs`) -/

/-- `ChunkedAbiEntry` from `near-abi/src/private.rs`. -/
structure ChunkedAbiEntry where
  schema_version : String
  body : AbiBody

/-- `AbiCombineErrorKind` from `near-abi/src/private.rs`. -/
inductive AbiCombineErrorKind where
  | schemaVersionConflict (expected : String) (found : List String)

/-- Outcome of `ChunkedAbiEntry::combine`; `crash` models a Rust panic
(the `Option::unwrap` calls in the source). -/
inductive CombineResult where
  | ok (entry : ChunkedAbiEntry)
  | err (kind : AbiCombineErrorKind)
  | crash

/-- Modelled from the spec: `schemars` `Schema` deserialization used with
`unwrap_or_default()` at `private.rs:59` — a boolean or object passes
through unchanged, anything else falls back to the default (empty object)
schema.  The claims never inspect these stored values. -/
def schemaFromValueOrDefault (v : Json) : Json :=
  match v with
  | .bool b => .bool b
  | .obj m => .obj m
  | _ => .obj []

/-- The `$defs` harvesting step of `combine` (`private.rs:51-63`): if the
entry's root schema is an object with a `"$defs"` object, insert each of
its entries into the accumulated definitions map. -/
def collectDefs (defs : List (String × Json)) (root_schema : Schema) : List (String × Json) :=
  match root_schema with
  | .obj m =>
    match jLookup "$defs" m with
    | some (.obj ds) =>
      ds.foldl (fun acc kv => insKV kv.1 (schemaFromValueOrDefault kv.2) acc) defs
    | _ => defs
  | _ => defs

/-- Modelled from the spec: the schema-generator collaborator (spec §6)
output `SchemaGenerator::into_root_schema_for::<String>()` — a root schema
for `String` carrying the accumulated definitions. -/
def intoRootSchemaForString (defs : List (String × Json)) : Schema :=
  Json.obj ([("$schema", .str "https://json-schema.org/draft/2020-12/schema"),
             ("type", .str "string")]
    ++ (if defs.isEmpty then [] else [("$defs", Json.obj defs)]))

/-- Loop state of `ChunkedAbiEntry::combine`. -/
structure CombineSt where
  schema_version : Option String
  functions : List AbiFunction
  definitions : List (String × Json)
  unexpected : List String

/-- One iteration of the `for entry in entries` loop of `combine`
(`private.rs:40-67`). -/
def combineStep (st : CombineSt) (entry : ChunkedAbiEntry) : CombineSt :=
  match st.schema_version with
  | some sv =>
    if sv ≠ entry.schema_version then
      { st with unexpected := insStr entry.schema_version st.unexpected }
    else
      { st with
          functions := st.functions ++ entry.body.functions,
          definitions := collectDefs st.definitions entry.body.root_schema }
  | none =>
    { schema_version := some entry.schema_version,
      functions := st.functions ++ entry.body.functions,
      definitions := collectDefs st.definitions entry.body.root_schema,
      unexpected := st.unexpected }

/-- The comparison `|x, y| x.name.cmp(&y.name)` as a total preorder. -/
def fnLe (f g : AbiFunction) : Bool := !(strLtB g.name f.name)

/-- `ChunkedAbiEntry::combine` from `near-abi/src/private.rs`.  The two
`Option::unwrap` calls on `schema_version` are modelled by the `crash`
outcome (they fire exactly when the input sequence is empty). -/
def combine (entries : List ChunkedAbiEntry) : CombineResult :=
  let st := entries.foldl combineStep ⟨none, [], [], []⟩
  if st.unexpected.isEmpty then
    match st.schema_version with
    | some sv =>
      .ok ⟨sv, ⟨sortLe fnLe st.functions, intoRootSchemaForString st.definitions⟩⟩
    | none => .crash
  else
    match st.schema_version with
    | some sv => .err (.schemaVersionConflict sv st.unexpected)
    | none => .crash

/-! ## Serialization to the interchange format

The serializers model `#[derive(Serialize)]` with the field attributes of
`near-abi/src/lib.rs` (`skip_serializing_if`, `flatten`, `rename_all`,
internal tagging via `serialization_type`, and the hand-written
`BorshSchemaContainerDef` remote derive). -/

/-- A field chunk that is present or skipped. -/
def oField (k : String) (o : Option Json) : List (String × Json) :=
  match o with
  | none => []
  | some v => [(k, v)]

/-- Serialization of `borsh::schema::Fields` (`FieldsDef`, untagged). -/
def serFields : Fields → Json
  | .namedFields l => .arr (l.map fun p => .arr [.str p.1, .str p.2])
  | .unnamedFields l => .arr (l.map Json.str)
  | .empty => .null

/-- Serialization of `borsh::schema::Definition` (`DefinitionDef`):
externally tagged, with `Sequence`/`Tuple`/`Enum` transparent and `Struct`
through `FieldsDef`. -/
def serDefinition : Definition → Json
  | .array length elements =>
    .obj [("Array", .obj [("length", .num length), ("elements", .str elements)])]
  | .sequence elements => .obj [("Sequence", .str elements)]
  | .tuple elements => .obj [("Tuple", .arr (elements.map Json.str))]
  | .enum variants => .obj [("Enum", .arr (variants.map fun p => .arr [.str p.1, .str p.2]))]
  | .struct fields => .obj [("Struct", serFields fields)]

/-- Serialization of `BorshSchemaContainer` via `BorshSchemaContainerDef`. -/
def serContainer (c : BorshSchemaContainer) : Json :=
  .obj [("declaration", .str c.declaration),
        ("definitions", .obj (c.definitions.map fun p => (p.1, serDefinition p.2)))]

/-- Serialization of `AbiType` (internally tagged by
`serialization_type`, lowercase variant names). -/
def serAbiType : AbiType → Json
  | .json ts => .obj [("serialization_type", .str "json"), ("type_schema", ts)]
  | .borsh c => .obj [("serialization_type", .str "borsh"), ("type_schema", serContainer c)]

/-- Serialization of `AbiJsonParameter`. -/
def serAbiJsonParameter (p : AbiJsonParameter) : Json :=
  .obj [("name", .str p.name), ("type_schema", p.type_schema)]

/-- Serialization of `AbiBorshParameter`. -/
def serAbiBorshParameter (p : AbiBorshParameter) : Json :=
  .obj [("name", .str p.name), ("type_schema", serContainer p.type_schema)]

/-- Serialization of `AbiParameters` (internally tagged by
`serialization_type`). -/
def serAbiParameters : AbiParameters → Json
  | .json args =>
    .obj [("serialization_type", .str "json"), ("args", .arr (args.map serAbiJsonParameter))]
  | .borsh args =>
    .obj [("serialization_type", .str "borsh"), ("args", .arr (args.map serAbiBorshParameter))]

/-- Serialization of `AbiFunctionKind` (`rename_all = "lowercase"`). -/
def serKind : AbiFunctionKind → Json
  | .view => .str "view"
  | .call => .str "call"

/-- Serialization of `AbiFunctionModifier` (`rename_all = "lowercase"`). -/
def serModifier : AbiFunctionModifier → Json
  | .init => .str "init"
  | .private_ => .str "private"
  | .payable => .str "payable"

/-- Serialization of `AbiFunction`; optional/empty fields are skipped per
their `skip_serializing_if` attributes. -/
def serAbiFunction (f : AbiFunction) : Json :=
  .obj ([("name", .str f.name)]
    ++ oField "doc" (f.doc.map Json.str)
    ++ [("kind", serKind f.kind)]
    ++ oField "modifiers"
        (if f.modifiers.isEmpty then none else some (.arr (f.modifiers.map serModifier)))
    ++ oField "params"
        (if f.params.is_empty then none else some (serAbiParameters f.params))
    ++ oField "callbacks"
        (if f.callbacks.isEmpty then none else some (.arr (f.callbacks.map serAbiType)))
    ++ oField "callbacks_vec" (f.callbacks_vec.map serAbiType)
    ++ oField "result" (f.result.map serAbiType))

/-- Serialization of `BuildInfo`. -/
def serBuildInfo (b : BuildInfo) : Json :=
  .obj ([("compiler", .str b.compiler), ("builder", .str b.builder)]
    ++ oField "image" (b.image.map Json.str))

/-- Serialization of `AbiMetadata`; the flattened `other` map is emitted
after the named fields (serde serializes flattened fields in declaration
order, i.e. last). -/
def serAbiMetadata (m : AbiMetadata) : Json :=
  .obj (oField "name" (m.name.map Json.str)
    ++ oField "version" (m.version.map Json.str)
    ++ oField "authors"
        (if m.authors.isEmpty then none else some (.arr (m.authors.map Json.str)))
    ++ oField "build" (m.build.map serBuildInfo)
    ++ oField "wasm_hash" (m.wasm_hash.map Json.str)
    ++ m.other.map (fun p => (p.1, Json.str p.2)))

/-- Serialization of `AbiBody`. -/
def serAbiBody (b : AbiBody) : Json :=
  .obj [("functions", .arr (b.functions.map serAbiFunction)),
        ("root_schema", b.root_schema)]

/-- Serialization of `AbiRoot`. -/
def serAbiRoot (r : AbiRoot) : Json :=
  .obj [("schema_version", .str r.schema_version),
        ("metadata", serAbiMetadata r.metadata),
        ("body", serAbiBody r.body)]

/-! ## Parsing from the interchange format

The parsers model `#[derive(Deserialize)]` with the same attributes:
records marked `deny_unknown_fields` reject any unknown key, the others
ignore unknown keys (serde's default), and `AbiMetadata` collects unknown
keys into the flattened `other` map.  Duplicate-key detection (serde's
"duplicate field" error) is not modelled; a JSON value obtained from text
cannot contain duplicate keys. -/

/-- `String` deserialization. -/
def getStr : Json → Except String String
  | .str s => .ok s
  | _ => .error "invalid type: expected a string"

/-- `Option<String>` deserialization of a possibly-absent field
(`#[serde(default)]`): absent or `null` is `None`. -/
def getOptStr : Option Json → Except String (Option String)
  | none => .ok none
  | some .null => .ok none
  | some (.str s) => .ok (some s)
  | some _ => .error "invalid type: expected a string"

/-- `Vec<T>` deserialization of a possibly-absent field
(`#[serde(default)]`): absent is `[]`; a present value must be an array. -/
def optList {α : Type} (o : Option Json) (p : Json → Except String α) :
    Except String (List α) :=
  match o with
  | none => .ok []
  | some (.arr xs) => xs.mapM p
  | some _ => .error "invalid type: expected a sequence"

/-- `Option<T>` deserialization of a possibly-absent field
(`#[serde(default)]`): absent or `null` is `None`. -/
def optParse {α : Type} (o : Option Json) (p : Json → Except String α) :
    Except String (Option α) :=
  match o with
  | none => .ok none
  | some .null => .ok none
  | some v => (p v).map some

/-- A field with a `#[serde(default)]` fallback value. -/
def optWithDefault {α : Type} (o : Option Json) (dflt : α) (p : Json → Except String α) :
    Except String α :=
  match o with
  | none => .ok dflt
  | some v => p v

/-- A required field. -/
def reqField (fields : List (String × Json)) (k : String) : Except String Json :=
  match jLookup k fields with
  | some v => .ok v
  | none => .error ("missing field `" ++ k ++ "`")

/-- The `deny_unknown_fields` check: every key must be known. -/
def keysIn (fields : List (String × Json)) (known : List String) : Bool :=
  fields.all (fun kv => known.contains kv.1)

/-- A JSON value that is a two-element array of strings (a serde
`(String, String)` tuple). -/
def asPairStr : Json → Option (String × String)
  | .arr [.str a, .str b] => some (a, b)
  | _ => none

/-- A JSON value that is a string. -/
def asStr : Json → Option String
  | .str s => some s
  | _ => none

/-- Deserialization of `borsh::schema::Fields` through the untagged
`FieldsDef`: the variants are tried in declaration order
(`NamedFields`, `UnnamedFields`, `Empty`). -/
def parseFields (j : Json) : Except String Fields :=
  match j with
  | .arr xs =>
    match xs.mapM asPairStr with
    | some l => .ok (.namedFields l)
    | none =>
      match xs.mapM asStr with
      | some l => .ok (.unnamedFields l)
      | none => .error "data did not match any variant of untagged enum FieldsDef"
  | .null => .ok .empty
  | _ => .error "data did not match any variant of untagged enum FieldsDef"

/-- Deserialization of the struct variant `DefinitionDef::Array`
(fields `length : u32` and `elements`; unknown keys ignored, serde's
default for struct variants). -/
def parseDefArray (fields : List (String × Json)) : Except String Definition :=
  match jLookup "length" fields with
  | none => .error "missing field `length`"
  | some lj =>
    match lj with
    | .num n =>
      if 0 ≤ n ∧ n < 4294967296 then
        match jLookup "elements" fields with
        | none => .error "missing field `elements`"
        | some ej =>
          match ej with
          | .str s => .ok (.array n.toNat s)
          | _ => .error "invalid type: expected a string"
      else .error "invalid value: integer out of range for u32"
    | _ => .error "invalid type: expected u32"

/-- Deserialization of `borsh::schema::Definition` through
`DefinitionDef` (externally tagged: a map with a single key). -/
def parseDefinition (j : Json) : Except String Definition :=
  match j with
  | .obj [(k, v)] =>
    if k = "Array" then
      match v with
      | .obj fields => parseDefArray fields
      | _ => .error "invalid type: expected struct variant DefinitionDef::Array"
    else if k = "Sequence" then
      (getStr v).map .sequence
    else if k = "Tuple" then
      match v with
      | .arr xs =>
        match xs.mapM asStr with
        | some l => .ok (.tuple l)
        | none => .error "invalid type: expected a string"
      | _ => .error "invalid type: expected a sequence"
    else if k = "Enum" then
      match v with
      | .arr xs =>
        match xs.mapM asPairStr with
        | some l => .ok (.enum l)
        | none => .error "invalid type: expected a tuple of size 2"
      | _ => .error "invalid type: expected a sequence"
    else if k = "Struct" then
      (parseFields v).map .struct
    else
      .error ("unknown variant `" ++ k ++ "`")
  | _ => .error "expected value of enum DefinitionDef as a map with a single key"

/-- Deserialization of the `BTreeMap<Declaration, Definition>` of
definitions: each entry is deserialized in order and inserted into the
(key-sorted) map. -/
def parseDefsMap (j : Json) : Except String (List (String × Definition)) :=
  match j with
  | .obj entries => do
    let parsed ← entries.mapM (fun kv => (parseDefinition kv.2).map (fun d => (kv.1, d)))
    Except.ok (parsed.foldl (fun m kv => insKV kv.1 kv.2 m) [])
  | _ => .error "invalid type: expected a map"

/-- Deserialization of `BorshSchemaContainer` via
`BorshSchemaContainerDef` (no `deny_unknown_fields`: unknown keys are
ignored). -/
def parseContainer (j : Json) : Except String BorshSchemaContainer :=
  match j with
  | .obj fields => do
    let dj ← reqField fields "declaration"
    let declaration ← getStr dj
    let mj ← reqField fields "definitions"
    let definitions ← parseDefsMap mj
    Except.ok ⟨declaration, definitions⟩
  | _ => .error "invalid type: expected struct BorshSchemaContainerDef"

/-- Deserialization of `AbiType` (internally tagged,
`deny_unknown_fields`). -/
def parseAbiType (j : Json) : Except String AbiType :=
  match j with
  | .obj fields =>
    if keysIn fields ["serialization_type", "type_schema"] then do
      let tj ← reqField fields "serialization_type"
      let tag ← getStr tj
      let ts ← reqField fields "type_schema"
      if tag = "json" then Except.ok (.json ts)
      else if tag = "borsh" then (parseContainer ts).map .borsh
      else Except.error ("unknown variant `" ++ tag ++ "`")
    else .error "unknown field"
  | _ => .error "invalid type: expected enum AbiType"

/-- Deserialization of `AbiJsonParameter` (`deny_unknown_fields`). -/
def parseAbiJsonParameter (j : Json) : Except String AbiJsonParameter :=
  match j with
  | .obj fields =>
    if keysIn fields ["name", "type_schema"] then do
      let nj ← reqField fields "name"
      let name ← getStr nj
      let ts ← reqField fields "type_schema"
      Except.ok ⟨name, ts⟩
    else .error "unknown field"
  | _ => .error "invalid type: expected struct AbiJsonParameter"

/-- Deserialization of `AbiBorshParameter` (`deny_unknown_fields`). -/
def parseAbiBorshParameter (j : Json) : Except String AbiBorshParameter :=
  match j with
  | .obj fields =>
    if keysIn fields ["name", "type_schema"] then do
      let nj ← reqField fields "name"
      let name ← getStr nj
      let tj ← reqField fields "type_schema"
      let ts ← parseContainer tj
      Except.ok ⟨name, ts⟩
    else .error "unknown field"
  | _ => .error "invalid type: expected struct AbiBorshParameter"

/-- Deserialization of `AbiParameters` (internally tagged,
`deny_unknown_fields`). -/
def parseAbiParameters (j : Json) : Except String AbiParameters :=
  match j with
  | .obj fields =>
    if keysIn fields ["serialization_type", "args"] then do
      let tj ← reqField fields "serialization_type"
      let tag ← getStr tj
      let aj ← reqField fields "args"
      match aj with
      | .arr xs =>
        if tag = "json" then (xs.mapM parseAbiJsonParameter).map .json
        else if tag = "borsh" then (xs.mapM parseAbiBorshParameter).map .borsh
        else Except.error ("unknown variant `" ++ tag ++ "`")
      | _ => Except.error "invalid type: expected a sequence"
    else .error "unknown field"
  | _ => .error "invalid type: expected enum AbiParameters"

/-- Deserialization of `AbiFunctionKind`. -/
def parseKind (j : Json) : Except String AbiFunctionKind := do
  let s ← getStr j
  if s = "view" then Except.ok .view
  else if s = "call" then Except.ok .call
  else Except.error ("unknown variant `" ++ s ++ "`")

/-- Deserialization of `AbiFunctionModifier`. -/
def parseModifier (j : Json) : Except String AbiFunctionModifier := do
  let s ← getStr j
  if s = "init" then Except.ok .init
  else if s = "private" then Except.ok .private_
  else if s = "payable" then Except.ok .payable
  else Except.error ("unknown variant `" ++ s ++ "`")

/-- The known keys of `AbiFunction`. -/
def fnKeys : List String :=
  ["name", "doc", "kind", "modifiers", "params", "callbacks", "callbacks_vec", "result"]

/-- Deserialization of `AbiFunction` (`deny_unknown_fields`; optional
fields default per their `#[serde(default)]` attributes). -/
def parseAbiFunction (j : Json) : Except String AbiFunction :=
  match j with
  | .obj fields =>
    if keysIn fields fnKeys then do
      let nj ← reqField fields "name"
      let name ← getStr nj
      let doc ← getOptStr (jLookup "doc" fields)
      let kj ← reqField fields "kind"
      let kind ← parseKind kj
      let modifiers ← optList (jLookup "modifiers" fields) parseModifier
      let params ← optWithDefault (jLookup "params" fields) AbiParameters.default parseAbiParameters
      let callbacks ← optList (jLookup "callbacks" fields) parseAbiType
      let callbacks_vec ← optParse (jLookup "callbacks_vec" fields) parseAbiType
      let result ← optParse (jLookup "result" fields) parseAbiType
      Except.ok ⟨name, doc, kind, modifiers, params, callbacks, callbacks_vec, result⟩
    else .error "unknown field"
  | _ => .error "invalid type: expected struct AbiFunction"

/-- Deserialization of `BuildInfo` (no `deny_unknown_fields`: unknown
keys are ignored). -/
def parseBuildInfo (j : Json) : Except String BuildInfo :=
  match j with
  | .obj fields => do
    let cj ← reqField fields "compiler"
    let compiler ← getStr cj
    let bj ← reqField fields "builder"
    let builder ← getStr bj
    let image ← getOptStr (jLookup "image" fields)
    Except.ok ⟨compiler, builder, image⟩
  | _ => .error "invalid type: expected struct BuildInfo"

/-- The named (non-flattened) keys of `AbiMetadata`. -/
def metadataKeys : List String := ["name", "version", "authors", "build", "wasm_hash"]

/-- Deserialization of `AbiMetadata`: the named fields are read and every
remaining key is collected into the flattened `HashMap<String, String>`
`other` (each leftover value must be a string). -/
def parseAbiMetadata (j : Json) : Except String AbiMetadata :=
  match j with
  | .obj fields => do
    let name ← getOptStr (jLookup "name" fields)
    let version ← getOptStr (jLookup "version" fields)
    let authors ← optList (jLookup "authors" fields) getStr
    let build ← optParse (jLookup "build" fields) parseBuildInfo
    let wasm_hash ← getOptStr (jLookup "wasm_hash" fields)
    let rest := fields.filter (fun kv => !(metadataKeys.contains kv.1))
    let pairs ← rest.mapM (fun kv => (getStr kv.2).map (fun s => (kv.1, s)))
    Except.ok ⟨name, version, authors, build, wasm_hash,
      pairs.foldl (fun m kv => insKV kv.1 kv.2 m) []⟩
  | _ => .error "invalid type: expected struct AbiMetadata"

/-- Deserialization of `AbiBody` (`deny_unknown_fields`). -/
def parseAbiBody (j : Json) : Except String AbiBody :=
  match j with
  | .obj fields =>
    if keysIn fields ["functions", "root_schema"] then do
      let fj ← reqField fields "functions"
      let functions ←
        match fj with
        | .arr xs => xs.mapM parseAbiFunction
        | _ => Except.error "invalid type: expected a sequence"
      let root_schema ← reqField fields "root_schema"
      Except.ok ⟨functions, root_schema⟩
    else .error "unknown field"
  | _ => .error "invalid type: expected struct AbiBody"

/-- Deserialization of `AbiRoot` (`deny_unknown_fields`;
`schema_version` goes through `ensure_current_version`). -/
def parseAbiRoot (j : Json) : Except String AbiRoot :=
  match j with
  | .obj fields =>
    if keysIn fields ["schema_version", "metadata", "body"] then do
      let vj ← reqField fields "schema_version"
      let unchecked ← getStr vj
      let schema_version ← ensure_current_version unchecked
      let mj ← reqField fields "metadata"
      let metadata ← parseAbiMetadata mj
      let bj ← reqField fields "body"
      let body ← parseAbiBody bj
      Except.ok ⟨schema_version, metadata, body⟩
    else .error "unknown field"
  | _ => .error "invalid type: expected struct AbiRoot"

/-! ## Well-formedness

Representation invariants of values that arrive through deserialization;
the round-trip theorem is stated under them. -/

/-- Strictly sorted list of strings (chain form). -/
def strChainSorted : List String → Bool
  | [] => true
  | [_] => true
  | a :: b :: rest => strLtB a b && strChainSorted (b :: rest)

/-- `Fields` whose serialization is injective: an unnamed field list must
be non-empty (an empty one re-parses as `NamedFields []`). -/
def wfFields : Fields → Bool
  | .unnamedFields l => !l.isEmpty
  | _ => true

/-- A `Definition` within `u32` bounds and with injective field lists. -/
def wfDefinition : Definition → Bool
  | .array length _ => length < 4294967296
  | .struct f => wfFields f
  | _ => true

/-- A container whose definitions map is key-sorted (the `BTreeMap`
invariant) with well-formed definitions. -/
def wfContainer (c : BorshSchemaContainer) : Bool :=
  strChainSorted (c.definitions.map (·.1)) && c.definitions.all (fun kv => wfDefinition kv.2)

/-- Well-formedness of an `AbiType`. -/
def wfAbiType : AbiType → Bool
  | .json _ => true
  | .borsh c => wfContainer c

/-- Well-formedness of an optional `AbiType`. -/
def wfOptAbiType : Option AbiType → Bool
  | none => true
  | some t => wfAbiType t

/-- Well-formedness of an `AbiFunction`: Borsh parameter lists must be
non-empty (an empty one is skipped during serialization and re-parses as
the default `Json` parameters) and all Borsh containers well-formed. -/
def wfFunction (f : AbiFunction) : Bool :=
  (match f.params with
   | .json _ => true
   | .borsh args => !args.isEmpty && args.all (fun a => wfContainer a.type_schema))
  && f.callbacks.all wfAbiType
  && wfOptAbiType f.callbacks_vec
  && wfOptAbiType f.result

/-- Well-formedness of `AbiMetadata`: the flattened `other` map is
key-sorted (the canonical `HashMap` representation chosen by the
embedding) and its keys do not collide with the named metadata fields. -/
def wfMetadata (m : AbiMetadata) : Bool :=
  strChainSorted (m.other.map (·.1))
  && m.other.all (fun kv => !(metadataKeys.contains kv.1))

/-- Well-formedness of an `AbiRoot`: current schema version, well-formed
metadata and functions. -/
def wfRoot (r : AbiRoot) : Bool :=
  (match ensure_current_version r.schema_version with
   | .ok _ => true
   | .error _ => false)
  && wfMetadata r.metadata
  && r.body.functions.all wfFunction

/-! ## Version dispatch (`near-abi/src/legacy/mod.rs`) -/

/-- The historical version selected by `from_value`'s
`match (schema_version.major, schema_version.minor)`. -/
inductive VersionTag where
  | v0_1
  | v0_2
  | current
deriving DecidableEq

/-- The `match (schema_version.major, schema_version.minor)` dispatch of
`from_value` (`legacy/mod.rs:33-48`). -/
def dispatchVersion (v : Version) : Except String VersionTag :=
  match v.major, v.minor with
  | 0, 1 => .ok .v0_1
  | 0, 2 => .ok .v0_2
  | 0, 3 => .ok .current
  | _, _ => .error ("Unsupported ABI schema version: " ++ versionToString v)

/-- The version-detection prefix of `from_value`
(`legacy/mod.rs:20-49`): object check, extraction of the
`schema_version` string field (`serde_json`'s `Index` yields `Null` for a
missing key, and `as_str` then fails), semver parse, and the
`(major, minor)` dispatch.  On a supported version the real function goes
on to deserialize and migrate; on an unsupported one it returns exactly
the error produced here.  (The real "valid semver" error appends the
`semver` crate's error description, which is not modelled.) -/
def from_value_dispatch (abi : Json) : Except String VersionTag :=
  match abi with
  | .obj fields =>
    match (jLookup "schema_version" fields).getD .null with
    | .str s =>
      match parseSemver s with
      | none => .error "expected `schema_version` to contain a valid semver string"
      | some v => dispatchVersion v
    | _ => .error "expected ABI to have a string field named `schema_version`"
  | _ => .error "expected ABI to be a JSON object"

/-! ## Legacy document models and migrations
(`near-abi/src/legacy/migration.rs`)

The historical structural types `v0_1::*` / `v0_2::*` live in
`legacy/v0_1.rs` / `legacy/v0_2.rs`, which are not part of the provided
sources; their shapes are reconstructed from their uses in
`legacy/migration.rs` and from spec §3 (flat `is_*` booleans, v0.1's
per-parameter type tag, metadata structurally identical across versions). -/

namespace V01

/-- Modelled from the spec: `v0_1::AbiType` (same two-variant shape as the
current `AbiType`; `legacy/v0_1.rs` is not under `src/`). -/
inductive AbiType where
  | json (type_schema : Schema)
  | borsh (type_schema : BorshSchemaContainer)

/-- Modelled from the spec: a v0.1 parameter carrying its own type tag
(`p.name` / `p.typ` in `migration.rs:69-82`). -/
structure AbiParameter where
  name : String
  typ : AbiType

/-- Modelled from the spec: `v0_1::AbiFunction` with flat role booleans
and per-parameter tags. -/
structure AbiFunction where
  name : String
  doc : Option String
  is_view : Bool
  is_init : Bool
  is_payable : Bool
  is_private : Bool
  params : List AbiParameter
  callbacks : List AbiType
  callbacks_vec : Option AbiType
  result : Option AbiType

/-- Modelled from the spec: `v0_1::AbiBody`. -/
structure AbiBody where
  functions : List AbiFunction
  root_schema : Schema

/-- Modelled from the spec: `v0_1::AbiRoot`; metadata is structurally
identical across versions (spec §4.3) and is represented by the shared
`AbiMetadata`. -/
structure AbiRoot where
  schema_version : String
  metadata : AbiMetadata
  body : AbiBody

end V01



namespace V02

/-- Modelled from the spec: `v0_2::AbiType`. -/
inductive AbiType where
  | json (type_schema : Schema)
  | borsh (type_schema : BorshSchemaContainer)

/-- Modelled from the spec: `v0_2::AbiJsonParameter`. -/
structure AbiJsonParameter where
  name : String
  type_schema : Schema

/-- Modelled from the spec: `v0_2::AbiBorshParameter`. -/
structure AbiBorshParameter where
  name : String
  type_schema : BorshSchemaContainer

/-- Modelled from the spec: `v0_2::AbiParameters` (grouped parameter list
with a single shared tag). -/
inductive AbiParameters where
  | json (args : List AbiJsonParameter)
  | borsh (args : List AbiBorshParameter)

/-- Modelled from the spec: `v0_2::AbiFunction` with flat role booleans
and grouped parameters. -/
structure AbiFunction where
  name : String
  doc : Option String
  is_view : Bool
  is_init : Bool
  is_payable : Bool
  is_private : Bool
  params : AbiParameters
  callbacks : List AbiType
  callbacks_vec : Option AbiType
  result : Option AbiType

/-- Modelled from the spec: `v0_2::AbiBody`. -/
structure AbiBody where
  functions : List AbiFunction
  root_schema : Schema

/-- Modelled from the spec: `v0_2::AbiRoot`. -/
structure AbiRoot where
  schema_version : String
  metadata : AbiMetadata
  body : AbiBody

/-- Modelled from the spec: `v0_2::SCHEMA_VERSION`. -/
def SCHEMA_VERSION : String := "0.2.0"

end V02



/-- `ToBorshSchema::to_borsh_schema` for `v0_1::AbiType`
(`migration.rs:8-16`): panics — modelled as `none` — on a Json-tagged
type. -/
def to_borsh_schema : V01.AbiType → Option BorshSchemaContainer
  | .borsh type_schema => some type_schema
  | .json _ => none

/-- `ToJsonSchema::to_json_schema` for `v0_1::AbiType`
(`migration.rs:22-30`): panics — modelled as `none` — on a Borsh-tagged
type. -/
def to_json_schema : V01.AbiType → Option Schema
  | .json type_schema => some type_schema
  | .borsh _ => none

/-- `v0_1_abi_type_to_v0_2` (`migration.rs:32-37`): re-tag, payload
unchanged. -/
def v0_1_abi_type_to_v0_2 : V01.AbiType → V02.AbiType
  | .json type_schema => .json type_schema
  | .borsh type_schema => .borsh type_schema

/-- `v0_2_abi_type_to_current` (`migration.rs:39-44`): re-tag, payload
unchanged. -/
def v0_2_abi_type_to_current : V02.AbiType → AbiType
  | .json type_schema => .json type_schema
  | .borsh type_schema => .borsh type_schema

/-- Whether a v0.1 type is Json-tagged
(`matches!(p.typ, v0_1::AbiType::Json { .. })`). -/
def v01TagIsJson : V01.AbiType → Bool
  | .json _ => true
  | .borsh _ => false

/-- The metadata hop of the migrations
(`serde_json::from_value(serde_json::to_value(&abi.metadata).unwrap()).unwrap()`
at `migration.rs:48-49` and `migration.rs:108-109`); both legacy metadata
types share the current shape, so the round trip goes through the shared
serializer/parser.  `none` models the `unwrap` panic. -/
def metadata_reinterpret (m : AbiMetadata) : Option AbiMetadata :=
  (parseAbiMetadata (serAbiMetadata m)).toOption

/-- The per-function body of `v0_1_to_v0_2` (`migration.rs:58-99`): infer
the shared tag from the first parameter (Json when the list is empty),
re-tag every parameter through `to_json_schema` / `to_borsh_schema`
(which panic — `none` — on the opposite tag), and copy everything else. -/
def v0_1_function_to_v0_2 (f : V01.AbiFunction) : Option V02.AbiFunction :=
  let is_json := (f.params.head?.map (fun p => v01TagIsJson p.typ)).getD true
  let paramsOpt : Option V02.AbiParameters :=
    if is_json then
      (f.params.mapM (fun p =>
        (to_json_schema p.typ).map (fun ts => V02.AbiJsonParameter.mk p.name ts))).map
        V02.AbiParameters.json
    else
      (f.params.mapM (fun p =>
        (to_borsh_schema p.typ).map (fun ts => V02.AbiBorshParameter.mk p.name ts))).map
        V02.AbiParameters.borsh
  paramsOpt.map (fun params =>
    { name := f.name
      doc := f.doc
      is_view := f.is_view
      is_init := f.is_init
      is_payable := f.is_payable
      is_private := f.is_private
      params := params
      callbacks := f.callbacks.map v0_1_abi_type_to_v0_2
      callbacks_vec := f.callbacks_vec.map v0_1_abi_type_to_v0_2
      result := f.result.map v0_1_abi_type_to_v0_2 })

/-- `v0_1_to_v0_2` (`migration.rs:46-104`); `none` models a panic in the
metadata unwrap or in a parameter re-tag. -/
def v0_1_to_v0_2 (abi : V01.AbiRoot) : Option V02.AbiRoot := do
  let metadata ← metadata_reinterpret abi.metadata
  let functions ← abi.body.functions.mapM v0_1_function_to_v0_2
  pure ⟨V02.SCHEMA_VERSION, metadata, ⟨functions, abi.body.root_schema⟩⟩

/-- The parameter mapping of `v0_2_to_current` (`migration.rs:125-144`):
re-wrap each argument, payload unchanged. -/
def v0_2_params_to_current : V02.AbiParameters → AbiParameters
  | .json args => .json (args.map (fun a => ⟨a.name, a.type_schema⟩))
  | .borsh args => .borsh (args.map (fun a => ⟨a.name, a.type_schema⟩))

/-- The function record built by `v0_2_to_current` exactly as written at
`migration.rs:118-152`: it copies the `is_view`/`is_init`/`is_payable`/
`is_private` booleans verbatim.  The current `AbiFunction`
(`lib.rs:102-126`) has no such fields — it has `kind` and `modifiers` —
so this struct literal does not type-check against the current crate;
this separate structure captures the literal as written. -/
structure AbiFunctionAsWritten where
  name : String
  doc : Option String
  is_view : Bool
  is_init : Bool
  is_payable : Bool
  is_private : Bool
  params : AbiParameters
  callbacks : List AbiType
  callbacks_vec : Option AbiType
  result : Option AbiType

/-- The per-function body of `v0_2_to_current` as written
(`migration.rs:118-152`). -/
def v0_2_function_to_current_asWritten (f : V02.AbiFunction) : AbiFunctionAsWritten :=
  { name := f.name
    doc := f.doc
    is_view := f.is_view
    is_init := f.is_init
    is_payable := f.is_payable
    is_private := f.is_private
    params := v0_2_params_to_current f.params
    callbacks := f.callbacks.map v0_2_abi_type_to_current
    callbacks_vec := f.callbacks_vec.map v0_2_abi_type_to_current
    result := f.result.map v0_2_abi_type_to_current }

/-- The root produced by `v0_2_to_current` as written. -/
structure AbiRootAsWritten where
  schema_version : String
  metadata : AbiMetadata
  functions : List AbiFunctionAsWritten
  root_schema : Schema

/-- `v0_2_to_current` as written (`migration.rs:106-157`); `none` models
the metadata unwrap panic. -/
def v0_2_to_current_asWritten (abi : V02.AbiRoot) : Option AbiRootAsWritten := do
  let metadata ← metadata_reinterpret abi.metadata
  pure ⟨SCHEMA_VERSION, metadata,
    abi.body.functions.map v0_2_function_to_current_asWritten,
    abi.body.root_schema⟩

/-- Modelled from the spec: the flag-to-classifier normalization
(spec §4.3) that the v0.2-to-current hop must perform to produce the
current `AbiFunction`: `is_view` folds into `kind` and the remaining
booleans become membership in `modifiers`. -/
def v0_2_function_fold_spec (f : V02.AbiFunction) : AbiFunction :=
  { name := f.name
    doc := f.doc
    kind := if f.is_view then .view else .call
    modifiers :=
      (if f.is_init then [AbiFunctionModifier.init] else [])
      ++ (if f.is_payable then [AbiFunctionModifier.payable] else [])
      ++ (if f.is_private then [AbiFunctionModifier.private_] else [])
    params := v0_2_params_to_current f.params
    callbacks := f.callbacks.map v0_2_abi_type_to_current
    callbacks_vec := f.callbacks_vec.map v0_2_abi_type_to_current
    result := f.result.map v0_2_abi_type_to_current }

/-! ## Small observers and example values used by the claim theorems -/

/-- Prefix test on character lists. -/
def listIsPre : List Char → List Char → Bool
  | [], _ => true
  | _ :: _, [] => false
  | a :: as, b :: bs => a = b && listIsPre as bs

/-- Substring test on character lists. -/
def listHasSub (n : List Char) : List Char → Bool
  | [] => n.isEmpty
  | b :: bs => listIsPre n (b :: bs) || listHasSub n bs

/-- Substring test on strings (used to state what an error message does
or does not mention). -/
def strHasSub (n h : String) : Bool := listHasSub n.data h.data

/-- Whether a parameter list is Borsh-tagged. -/
def paramsIsBorsh : AbiParameters → Bool
  | .json _ => false
  | .borsh _ => true

/-- Whether a v0.2 parameter list is Json-tagged. -/
def v02ParamsIsJson : V02.AbiParameters → Bool
  | .json _ => true
  | .borsh _ => false

/-- The parameter names of a v0.2 parameter list. -/
def v02ParamNames : V02.AbiParameters → List String
  | .json args => args.map (·.name)
  | .borsh args => args.map (·.name)

/-- A minimal function with a given name (used by combiner examples). -/
def mkFn (n : String) : AbiFunction :=
  ⟨n, none, .call, [], .json [], [], none, none⟩

/-- Combiner example entry with functions named `b`, `a`. -/
def exEntryBA : ChunkedAbiEntry := ⟨"0.3.0", ⟨[mkFn "b", mkFn "a"], .obj []⟩⟩

/-- Combiner example entry with one function named `c`. -/
def exEntryC : ChunkedAbiEntry := ⟨"0.3.0", ⟨[mkFn "c"], .obj []⟩⟩

/-- Combiner example entry with no functions. -/
def exEntryE : ChunkedAbiEntry := ⟨"0.3.0", ⟨[], .obj []⟩⟩

/-- Combiner example entry used by the single-entry witness. -/
def exEntryS : ChunkedAbiEntry := ⟨"0.3.0", ⟨[mkFn "z", mkFn "y"], .obj []⟩⟩

/-- Conflict example entry tagged `0.3.0` (first). -/
def exEntry03a : ChunkedAbiEntry := ⟨"0.3.0", ⟨[], .obj []⟩⟩

/-- Conflict example entry tagged `0.2.0`. -/
def exEntry02 : ChunkedAbiEntry := ⟨"0.2.0", ⟨[], .obj []⟩⟩

/-- Conflict example entry tagged `0.3.0` (later). -/
def exEntry03b : ChunkedAbiEntry := ⟨"0.3.0", ⟨[], .obj []⟩⟩

/-- Conflict example entry tagged `0.4.0`. -/
def exEntry04 : ChunkedAbiEntry := ⟨"0.4.0", ⟨[], .obj []⟩⟩

/-- A syntactically complete ABI document tagged with an unsupported
version. -/
def exDoc9999 : Json :=
  .obj [("schema_version", .str "99.99.99"),
        ("metadata", .obj []),
        ("body", .obj [("functions", .arr []), ("root_schema", .obj [])])]

/-- A fully populated metadata value used by witnesses. -/
def exMetaFull : AbiMetadata :=
  ⟨some "counter", some "1.0.0", ["alice"],
   some ⟨"rustc 1.70", "cargo-near 0.5", some "img"⟩, some "H4sh",
   [("license", "MIT"), ("repo", "x")]⟩

/-- A well-formed Borsh schema container used by witnesses. -/
def exContainer : BorshSchemaContainer :=
  ⟨"Pair", [("Pair", .struct (.namedFields [("a", "u32"), ("b", "u32")])),
            ("u32", .sequence "u8")]⟩

/-- A view function exercising doc, modifiers, JSON params, callbacks and
results. -/
def exFnView : AbiFunction :=
  ⟨"get", some "Returns the value.", .view, [.init, .payable],
   .json [⟨"key", .obj [("type", .str "string")]⟩],
   [.json (.bool true)], some (.borsh exContainer), some (.json (.obj []))⟩

/-- A call function with a non-empty Borsh parameter list. -/
def exFnBorsh : AbiFunction :=
  ⟨"set", none, .call, [], .borsh [⟨"value", exContainer⟩], [], none,
   some (.borsh ⟨"u64", [("u64", .array 8 "u8")]⟩)⟩

/-- A well-formed current-version root used by the round-trip witness. -/
def exGoodRoot : AbiRoot :=
  ⟨"0.3.0", exMetaFull, ⟨[exFnView, exFnBorsh], .obj [("$defs", .obj [])]⟩⟩

/-- A root whose single function has an empty Borsh parameter list. -/
def exBadRoot : AbiRoot :=
  ⟨"0.3.0", ⟨none, none, [], none, none, []⟩,
   ⟨[⟨"f", none, .call, [], .borsh [], [], none, none⟩], .obj []⟩⟩

/-- What `exBadRoot` becomes after a serialize/parse round trip: the
empty Borsh parameter list is skipped during serialization and comes back
as the default (empty JSON) parameter list. -/
def exBadRootParsed : AbiRoot :=
  ⟨"0.3.0", ⟨none, none, [], none, none, []⟩,
   ⟨[⟨"f", none, .call, [], .json [], [], none, none⟩], .obj []⟩⟩

/-- A v0.1 root with no functions and full metadata. -/
def exV01Root : V01.AbiRoot := ⟨"0.1.0", exMetaFull, ⟨[], .obj []⟩⟩

/-- The v0.2 root `exV01Root` migrates to. -/
def exV01Migrated : V02.AbiRoot := ⟨"0.2.0", exMetaFull, ⟨[], .obj []⟩⟩

/-- A v0.2 root with no functions and full metadata. -/
def exV02Root : V02.AbiRoot := ⟨"0.2.0", exMetaFull, ⟨[], .obj []⟩⟩

/-- The as-written current root `exV02Root` migrates to. -/
def exV02Migrated : AbiRootAsWritten := ⟨"0.3.0", exMetaFull, [], .obj []⟩

/-- A v0.1 function with no parameters. -/
def exEmptyFn : V01.AbiFunction :=
  ⟨"nop", none, false, false, false, false, [], [], none, none⟩

/-- A v0.1 function whose parameters are uniformly Json-tagged. -/
def exJsonFn : V01.AbiFunction :=
  ⟨"j", none, false, false, false, false,
   [⟨"p1", .json (.obj [])⟩, ⟨"p2", .json (.bool true)⟩], [], none, none⟩

/-- A v0.1 function whose first parameter is Json-tagged and whose second
is Borsh-tagged. -/
def exMixedFn : V01.AbiFunction :=
  ⟨"m", none, false, false, false, false,
   [⟨"p1", .json (.obj [])⟩, ⟨"p2", .borsh ⟨"u32", []⟩⟩], [], none, none⟩

/-- A v0.1 root containing `exMixedFn`. -/
def exMixedRoot : V01.AbiRoot :=
  ⟨"0.1.0", ⟨none, none, [], none, none, []⟩, ⟨[exMixedFn], .obj []⟩⟩

/-! ## Combiner lemmas -/

/-! ## Claim theorems: the combiner -/

/-! ## Claim theorems: the v0.2-to-current function migration (C1) -/

/-- The failing input for C1: a v0.2 function with
`is_view = true, is_payable = true, is_init = false, is_private = false`. -/
def exV02Fn : V02.AbiFunction :=
  { name := "add", doc := none, is_view := true, is_init := false, is_payable := true,
    is_private := false, params := .json [], callbacks := [], callbacks_vec := none,
    result := none }

/-! ## Substring lemmas for error-message statements -/

/-! ## Claim theorems: version boundary rejection (C8) -/

/-! ## Claim theorems: unknown-field handling (C9) -/

/-! ## Round-trip lemmas: lookup and key infrastructure -/

/-! ## Round-trip lemmas: Borsh schema components -/

/-! ## Round-trip lemmas: optional and defaulted fields -/

/-- The parameter-list invariant under which the `params` field survives a
round trip: a Borsh parameter list is non-empty with well-formed
containers. -/
def WfParamsStrict : AbiParameters → Prop
  | .json _ => True
  | .borsh args => (!args.isEmpty) = true ∧ ∀ a ∈ args, wfContainer a.type_schema = true

/-! ## Round-trip lemmas: records -/

/-! ## Claim theorems: metadata preservation (C6) -/

/-! ## Claim theorems: v0.1 parameter class inference (C2) -/

theorem clLt_irrefl (l : List Char) : clLt l l = false := by
  induction l with
  | nil => rfl
  | cons a as ih => simp [clLt, ih]

theorem strLtB_irrefl (s : String) : strLtB s s = false := clLt_irrefl s.data

theorem clLt_trans {a b c : List Char} (hab : clLt a b = true) (hbc : clLt b c = true) :
    clLt a c = true := by
  induction a generalizing b c with
  | nil =>
    cases b with
    | nil => exact absurd hab (by simp [clLt])
    | cons y ys =>
      cases c with
      | nil => exact absurd hbc (by simp [clLt])
      | cons z zs => simp [clLt]
  | cons x xs ih =>
    cases b with
    | nil => exact absurd hab (by simp [clLt])
    | cons y ys =>
      cases c with
      | nil => exact absurd hbc (by simp [clLt])
      | cons z zs =>
        simp only [clLt] at hab hbc ⊢
        rcases Nat.lt_trichotomy x.toNat y.toNat with hxy | hxy | hxy
        · rcases Nat.lt_trichotomy y.toNat z.toNat with hyz | hyz | hyz
          · rw [if_pos (Nat.lt_trans hxy hyz)]
          · rw [if_pos (hyz ▸ hxy)]
          · rw [if_neg (by omega), if_pos hyz] at hbc
            exact absurd hbc (by simp)
        · rw [if_neg (by omega), if_neg (by omega)] at hab
          rcases Nat.lt_trichotomy y.toNat z.toNat with hyz | hyz | hyz
          · rw [if_pos (by omega)]
          · rw [if_neg (by omega), if_neg (by omega)] at hbc
            rw [if_neg (by omega), if_neg (by omega)]
            exact ih hab hbc
          · rw [if_neg (by omega), if_pos hyz] at hbc
            exact absurd hbc (by simp)
        · rw [if_neg (by omega), if_pos hxy] at hab
          exact absurd hab (by simp)

theorem strLtB_trans {a b c : String} (hab : strLtB a b = true) (hbc : strLtB b c = true) :
    strLtB a c = true := clLt_trans hab hbc

theorem clLt_conn {a b : List Char} (hab : clLt a b = false) (hba : clLt b a = false) :
    a = b := by
  induction a generalizing b with
  | nil =>
    cases b with
    | nil => rfl
    | cons y ys => simp [clLt] at hab
  | cons x xs ih =>
    cases b with
    | nil => exact absurd hba (by simp [clLt])
    | cons y ys =>
      simp only [clLt] at hab hba
      rcases Nat.lt_trichotomy x.toNat y.toNat with hxy | hxy | hxy
      · rw [if_pos hxy] at hab
        exact absurd hab (by simp)
      · rw [if_neg (by omega), if_neg (by omega)] at hab
        rw [if_neg (by omega), if_neg (by omega)] at hba
        have hc : x = y := by
          have hv : x.val = y.val := by
            have h1 : x.val.toNat = y.val.toNat := hxy
            exact UInt32.toNat.inj h1
          exact Char.ext hv
        rw [hc, ih hab hba]
      · rw [if_pos hxy] at hba
        exact absurd hba (by simp)

theorem strLtB_conn {a b : String} (hab : strLtB a b = false) (hba : strLtB b a = false) :
    a = b := by
  have h := clLt_conn hab hba
  cases a; cases b; simp_all [String.data]

theorem strLtB_asymm {a b : String} (hab : strLtB a b = true) : strLtB b a = false := by
  by_contra h
  have hba : strLtB b a = true := by
    cases hh : strLtB b a
    · exact absurd hh h
    · rfl
  have := strLtB_trans hab hba
  rw [strLtB_irrefl] at this
  exact Bool.noConfusion this

theorem strLtB_of_ne_of_not_lt {a b : String} (hne : a ≠ b) (h : strLtB a b = false) :
    strLtB b a = true := by
  cases hh : strLtB b a
  · exact absurd (strLtB_conn h hh) hne
  · rfl

theorem mem_insStr (a k : String) (l : List String) :
    a ∈ insStr k l ↔ a = k ∨ a ∈ l := by
  induction l with
  | nil => simp [insStr]
  | cons k' rest ih =>
    by_cases h1 : strLtB k k'
    · simp [insStr, h1]
    · by_cases h2 : k = k'
      · subst h2
        show a ∈ (if strLtB k k then k :: k :: rest else if k = k then k :: rest else k :: insStr k rest) ↔ _
        rw [if_neg h1, if_pos rfl]
        simp only [List.mem_cons]
        tauto
      · simp only [insStr, if_neg h1, if_neg h2]
        simp [ih]
        tauto

theorem sorted_insStr {k : String} {l : List String}
    (hs : l.Pairwise strPairLt) : (insStr k l).Pairwise strPairLt := by
  induction l with
  | nil => simp [insStr, List.pairwise_cons]
  | cons k' rest ih =>
    rcases List.pairwise_cons.mp hs with ⟨hk', hrest⟩
    by_cases h1 : strLtB k k'
    · simp only [insStr, if_pos h1]
      refine List.pairwise_cons.mpr ⟨?_, hs⟩
      intro b hb
      rcases hb with _ | hb
      · exact h1
      · exact strLtB_trans h1 (hk' _ (by assumption))
    · by_cases h2 : k = k'
      · subst h2
        simp only [insStr, if_neg h1, if_pos rfl]
        exact hs
      · simp only [insStr, if_neg h1, if_neg h2]
        refine List.pairwise_cons.mpr ⟨?_, ih hrest⟩
        intro b hb
        rcases (mem_insStr b k rest).mp hb with hb | hb
        · exact hb ▸ strLtB_of_ne_of_not_lt h2 (by cases hh : strLtB k k' <;> simp_all)
        · exact hk' _ hb

theorem insKV_of_forall_lt {β : Type} {k : String} {v : β} {m : List (String × β)}
    (h : ∀ p ∈ m, strLtB p.1 k = true) : insKV k v m = m ++ [(k, v)] := by
  induction m with
  | nil => rfl
  | cons p rest ih =>
    obtain ⟨k', v'⟩ := p
    have hk' : strLtB k' k = true := h (k', v') (by simp)
    have h1 : strLtB k k' = false := strLtB_asymm hk'
    have h2 : k ≠ k' := by
      intro he
      rw [he, strLtB_irrefl] at hk'
      exact Bool.noConfusion hk'
    simp only [insKV, h1, Bool.false_eq_true, if_false, if_neg h2, List.cons_append]
    rw [ih (fun p hp => h p (by simp [hp]))]

theorem foldl_insKV_of_sorted {β : Type} (l m : List (String × β))
    (hs : (m ++ l).Pairwise kvLt) :
    l.foldl (fun acc kv => insKV kv.1 kv.2 acc) m = m ++ l := by
  induction l generalizing m with
  | nil => simp
  | cons kv rest ih =>
    obtain ⟨k, v⟩ := kv
    have hlt : ∀ p ∈ m, strLtB p.1 k = true := by
      intro p hp
      have := (List.pairwise_append.mp hs).2.2 p hp (k, v) (by simp)
      exact this
    simp only [List.foldl_cons]
    rw [insKV_of_forall_lt hlt]
    have hs' : ((m ++ [(k, v)]) ++ rest).Pairwise kvLt := by
      have : m ++ (k, v) :: rest = (m ++ [(k, v)]) ++ rest := by simp
      exact this ▸ hs
    rw [ih (m ++ [(k, v)]) hs']
    simp

theorem perm_insLe {α : Type} (le : α → α → Bool) (x : α) (l : List α) :
    (insLe le x l).Perm (x :: l) := by
  induction l with
  | nil => exact List.Perm.refl _
  | cons y ys ih =>
    by_cases h : le x y
    · simp [insLe, h]
    · simp only [insLe, if_neg h]
      exact ((ih.cons y).trans (List.Perm.swap x y ys))

theorem perm_sortLe {α : Type} (le : α → α → Bool) (l : List α) :
    (sortLe le l).Perm l := by
  induction l with
  | nil => exact List.Perm.refl _
  | cons x xs ih =>
    simp only [sortLe, List.foldr_cons]
    exact (perm_insLe le x _).trans (ih.cons x)

theorem sorted_insLe {α : Type} {le : α → α → Bool}
    (htot : ∀ a b, le a b = true ∨ le b a = true)
    (htrans : ∀ a b c, le a b = true → le b c = true → le a c = true)
    {x : α} {l : List α} (hs : l.Pairwise (fun a b => le a b = true)) :
    (insLe le x l).Pairwise (fun a b => le a b = true) := by
  induction l with
  | nil => simp [insLe]
  | cons y ys ih =>
    rcases List.pairwise_cons.mp hs with ⟨hy, hys⟩
    by_cases h : le x y
    · simp only [insLe, if_pos h]
      refine List.pairwise_cons.mpr ⟨?_, hs⟩
      intro b hb
      rcases hb with _ | hb
      · exact h
      · exact htrans _ _ _ h (hy _ (by assumption))
    · simp only [insLe, if_neg h]
      refine List.pairwise_cons.mpr ⟨?_, ih hys⟩
      intro b hb
      have hmem := (perm_insLe le x ys).mem_iff.mp hb
      rcases List.mem_cons.mp hmem with hb' | hb'
      · subst hb'
        rcases htot y b with hyb | hby
        · exact hyb
        · exact absurd hby (by simpa using h)
      · exact hy _ hb'

theorem sorted_sortLe {α : Type} {le : α → α → Bool}
    (htot : ∀ a b, le a b = true ∨ le b a = true)
    (htrans : ∀ a b c, le a b = true → le b c = true → le a c = true)
    (l : List α) : (sortLe le l).Pairwise (fun a b => le a b = true) := by
  induction l with
  | nil => simp [sortLe]
  | cons x xs ih =>
    simp only [sortLe, List.foldr_cons]
    exact sorted_insLe htot htrans ih

theorem foldl_combineStep_version {v : String} :
    ∀ (es : List ChunkedAbiEntry) (st : CombineSt), st.schema_version = some v →
      (es.foldl combineStep st).schema_version = some v := by
  intro es
  induction es with
  | nil => intro st h; simpa using h
  | cons e rest ih =>
    intro st h
    simp only [List.foldl_cons]
    apply ih
    simp only [combineStep, h]
    split <;> rfl

theorem foldl_combineStep_uniform {v : String} (es : List ChunkedAbiEntry)
    (hall : ∀ e ∈ es, e.schema_version = v) :
    ∀ (st : CombineSt), st.schema_version = some v →
      ∃ d, es.foldl combineStep st =
        ⟨some v, st.functions ++ es.flatMap (fun e => e.body.functions), d, st.unexpected⟩ := by
  induction es with
  | nil =>
    intro st h
    refine ⟨st.definitions, ?_⟩
    obtain ⟨sv, fns, defs, ux⟩ := st
    simp_all
  | cons e rest ih =>
    intro st h
    have he : e.schema_version = v := hall e (by simp)
    have hstep : combineStep st e =
        ⟨some v, st.functions ++ e.body.functions,
         collectDefs st.definitions e.body.root_schema, st.unexpected⟩ := by
      simp only [combineStep, h]
      rw [he]
      simp
    simp only [List.foldl_cons, hstep]
    obtain ⟨d, hd⟩ := ih (fun e' he' => hall e' (by simp [he']))
      ⟨some v, st.functions ++ e.body.functions,
       collectDefs st.definitions e.body.root_schema, st.unexpected⟩ rfl
    refine ⟨d, ?_⟩
    rw [hd]
    simp

theorem foldl_combineStep_unexpected_mem {v : String} (es : List ChunkedAbiEntry) :
    ∀ (st : CombineSt), st.schema_version = some v → ∀ s : String,
      (s ∈ (es.foldl combineStep st).unexpected ↔
        s ∈ st.unexpected ∨ (s ≠ v ∧ ∃ e ∈ es, e.schema_version = s)) := by
  induction es with
  | nil => intro st h s; simp
  | cons e rest ih =>
    intro st h s
    simp only [List.foldl_cons]
    by_cases he : v = e.schema_version
    · have hstep : combineStep st e =
          ⟨some v, st.functions ++ e.body.functions,
           collectDefs st.definitions e.body.root_schema, st.unexpected⟩ := by
        simp [combineStep, h, ← he]
      rw [hstep, ih _ rfl s]
      constructor
      · rintro (hs | ⟨hsv, e', he', hse'⟩)
        · exact Or.inl hs
        · exact Or.inr ⟨hsv, e', by simp [he'], hse'⟩
      · rintro (hs | ⟨hsv, e', he', hse'⟩)
        · exact Or.inl hs
        · rcases List.mem_cons.mp he' with rfl | he''
          · exact absurd (hse' ▸ he) (Ne.symm hsv)
          · exact Or.inr ⟨hsv, e', he'', hse'⟩
    · have hstep : combineStep st e =
          { st with unexpected := insStr e.schema_version st.unexpected,
                    schema_version := some v } := by
        simp only [combineStep, h]
        rw [if_pos he]
      rw [hstep, ih _ rfl s]
      simp only [mem_insStr]
      constructor
      · rintro (⟨hs | hs⟩ | ⟨hsv, e', he', hse'⟩)
        · exact Or.inr ⟨hs ▸ (fun hv => he (hv.symm)), e, by simp, hs.symm⟩
        · exact Or.inl hs
        · exact Or.inr ⟨hsv, e', by simp [he'], hse'⟩
      · rintro (hs | ⟨hsv, e', he', hse'⟩)
        · exact Or.inl (Or.inr hs)
        · rcases List.mem_cons.mp he' with rfl | he''
          · exact Or.inl (Or.inl hse'.symm)
          · exact Or.inr ⟨hsv, e', he'', hse'⟩

theorem foldl_combineStep_unexpected_sorted (es : List ChunkedAbiEntry) :
    ∀ (st : CombineSt), st.unexpected.Pairwise strPairLt →
      ((es.foldl combineStep st).unexpected).Pairwise strPairLt := by
  induction es with
  | nil => intro st h; simpa using h
  | cons e rest ih =>
    intro st h
    simp only [List.foldl_cons]
    apply ih
    simp only [combineStep]
    split
    · split
      · exact sorted_insStr h
      · exact h
    · exact h

theorem fnLe_total (f g : AbiFunction) : fnLe f g = true ∨ fnLe g f = true := by
  by_cases h : strLtB g.name f.name = true
  · right
    simp [fnLe, strLtB_asymm h]
  · left
    simp only [fnLe, Bool.not_eq_true'] at h ⊢
    exact (Bool.not_eq_true _).mp h

theorem fnLe_trans (f g h : AbiFunction) (hfg : fnLe f g = true) (hgh : fnLe g h = true) :
    fnLe f h = true := by
  simp only [fnLe, Bool.not_eq_true'] at hfg hgh ⊢
  by_cases hlt : strLtB f.name g.name = true
  · cases hh : strLtB h.name f.name
    · rfl
    · have := strLtB_trans hh hlt
      rw [this] at hgh
      exact hgh
  · have heq : f.name = g.name :=
      strLtB_conn ((Bool.not_eq_true _).mp hlt) hfg
    rw [← heq] at hgh
    exact hgh

/-- C3 counterexample: calling `combine` on an empty sequence does not
return an error value at all — it crashes (the `schema_version.unwrap()`
panics on `None`), refuting the claim that it yields a `NoEntries` error
without crashing (no `NoEntries` variant exists in
`AbiCombineErrorKind`). -/
theorem combine_empty_crashes_cx :
    combine [] = .crash ∧ ∀ k : AbiCombineErrorKind, combine [] ≠ .err k := by
  constructor
  · rfl
  · intro k h
    exact CombineResult.noConfusion h

/-- C3 (amended): `combine` on an empty input panics (`unwrap` of `None`)
instead of returning an error; `combine` on exactly one entry always
succeeds, keeping the entry's `schema_version`, sorting its function list
by name, and rebuilding `root_schema` from a fresh `String` schema
generator seeded with the entry's `$defs` definitions. -/
theorem combine_singleton :
    combine [] = .crash ∧
    ∀ e : ChunkedAbiEntry,
      combine [e] =
        .ok ⟨e.schema_version,
             ⟨sortLe fnLe e.body.functions,
              intoRootSchemaForString (collectDefs [] e.body.root_schema)⟩⟩ := by
  refine ⟨rfl, ?_⟩
  intro e
  simp [combine, combineStep]

/-- C5: combining a non-empty sequence of entries that all carry the same
`schema_version` succeeds with one entry carrying that version whose
function list is a permutation of the concatenation of the inputs'
function lists (no deduplication), sorted ascending by function name. -/
theorem combine_uniform_version_sorts_functions
    (e0 : ChunkedAbiEntry) (rest : List ChunkedAbiEntry) (v : String)
    (hall : ∀ e ∈ e0 :: rest, e.schema_version = v) :
    ∃ r, combine (e0 :: rest) = .ok r ∧ r.schema_version = v ∧
      r.body.functions.Perm ((e0 :: rest).flatMap (fun e => e.body.functions)) ∧
      r.body.functions.Pairwise (fun f g => fnLe f g = true) := by
  have he0 : e0.schema_version = v := hall e0 (by simp)
  have hstep : combineStep ⟨none, [], [], []⟩ e0 =
      ⟨some v, e0.body.functions, collectDefs [] e0.body.root_schema, []⟩ := by
    simp [combineStep, he0]
  obtain ⟨d, hd⟩ := foldl_combineStep_uniform rest
    (fun e he => hall e (by simp [he]))
    ⟨some v, e0.body.functions, collectDefs [] e0.body.root_schema, []⟩ rfl
  refine ⟨⟨v, ⟨sortLe fnLe (e0.body.functions ++ rest.flatMap fun e => e.body.functions),
      intoRootSchemaForString d⟩⟩, ?_, rfl, ?_, ?_⟩
  · simp only [combine, List.foldl_cons, hstep, hd]
    simp
  · simp only [List.flatMap_cons]
    exact perm_sortLe _ _
  · exact sorted_sortLe fnLe_total fnLe_trans _

/-- C4: when at least one later entry's `schema_version` differs from the
first entry's, `combine` processes the whole sequence and fails with a
`SchemaVersionConflict` whose `expected` is the first entry's version and
whose `found` is the sorted, duplicate-free list of exactly the distinct
mismatching versions occurring anywhere in the input. -/
theorem combine_conflict_reports_sorted_versions
    (e0 : ChunkedAbiEntry) (rest : List ChunkedAbiEntry)
    (hmix : ∃ e ∈ rest, e.schema_version ≠ e0.schema_version) :
    ∃ found,
      combine (e0 :: rest) = .err (.schemaVersionConflict e0.schema_version found) ∧
      (∀ s, s ∈ found ↔ (s ≠ e0.schema_version ∧ ∃ e ∈ rest, e.schema_version = s)) ∧
      found.Pairwise strPairLt := by
  set v := e0.schema_version with hv
  have hstep : combineStep ⟨none, [], [], []⟩ e0 =
      ⟨some v, e0.body.functions, collectDefs [] e0.body.root_schema, []⟩ := by
    simp [combineStep]
  set st := rest.foldl combineStep
    ⟨some v, e0.body.functions, collectDefs [] e0.body.root_schema, []⟩ with hst
  have hver : st.schema_version = some v := foldl_combineStep_version rest _ rfl
  have hmem : ∀ s, s ∈ st.unexpected ↔ (s ≠ v ∧ ∃ e ∈ rest, e.schema_version = s) := by
    intro s
    rw [hst, foldl_combineStep_unexpected_mem rest _ rfl s]
    simp
  have hsorted : st.unexpected.Pairwise strPairLt := by
    rw [hst]
    exact foldl_combineStep_unexpected_sorted rest _ (by simp)
  obtain ⟨e, he, hne⟩ := hmix
  have hnonempty : e.schema_version ∈ st.unexpected :=
    (hmem _).mpr ⟨hne, e, he, rfl⟩
  have hempty : st.unexpected.isEmpty = false := by
    cases hul : st.unexpected with
    | nil => rw [hul] at hnonempty; exact absurd hnonempty (by simp)
    | cons a l => simp [hul]
  refine ⟨st.unexpected, ?_, hmem, hsorted⟩
  simp only [combine, List.foldl_cons, hstep, ← hst, hempty]
  simp only [Bool.false_eq_true, if_false, hver]

/-- C10: `combine` compares versions as exact strings, so two entries
whose versions agree on major.minor and differ only in patch conflict,
even though both `ensure_current_version` and the legacy `from_value`
dispatch accept them as the same (current) schema version. -/
theorem combine_patch_mismatch_conflict
    (s1 s2 : String) (p1 p2 : Nat) (e1 e2 : ChunkedAbiEntry)
    (h1 : e1.schema_version = s1) (h2 : e2.schema_version = s2) (hne : s1 ≠ s2)
    (hp1 : parseSemver s1 = some ⟨0, 3, p1⟩) (hp2 : parseSemver s2 = some ⟨0, 3, p2⟩) :
    combine [e1, e2] = .err (.schemaVersionConflict s1 [s2]) ∧
    ensure_current_version s1 = .ok s1 ∧
    ensure_current_version s2 = .ok s2 ∧
    from_value_dispatch (.obj [("schema_version", .str s1)]) = .ok .current ∧
    from_value_dispatch (.obj [("schema_version", .str s2)]) = .ok .current := by
  refine ⟨?_, ?_, ?_, ?_, ?_⟩
  · simp [combine, combineStep, h1, h2, Ne.symm hne, hne, insStr]
  · simp [ensure_current_version, hp1, SCHEMA_SEMVER]
  · simp [ensure_current_version, hp2, SCHEMA_SEMVER]
  · simp only [from_value_dispatch, jLookup, reduceIte, Option.getD_some, hp1]
    rfl
  · simp only [from_value_dispatch, jLookup, reduceIte, Option.getD_some, hp2]
    rfl

/-- C10 witness: versions `"0.3.0"` and `"0.3.1"`. -/
theorem combine_patch_mismatch_conflict_witness :
    combine [⟨"0.3.0", ⟨[], Json.obj []⟩⟩, ⟨"0.3.1", ⟨[], Json.obj []⟩⟩] =
      .err (.schemaVersionConflict "0.3.0" ["0.3.1"]) ∧
    ensure_current_version "0.3.0" = .ok "0.3.0" ∧
    ensure_current_version "0.3.1" = .ok "0.3.1" ∧
    from_value_dispatch (.obj [("schema_version", .str "0.3.0")]) = .ok .current ∧
    from_value_dispatch (.obj [("schema_version", .str "0.3.1")]) = .ok .current :=
  combine_patch_mismatch_conflict "0.3.0" "0.3.1" 0 1 _ _ rfl rfl
    (by decide) (by decide) (by decide)

/-- C1: `v0_2_to_current` as written (`migration.rs:118-152`) copies the
flat role booleans verbatim instead of folding them into
`kind`/`modifiers` — the struct literal it builds has no `kind` or
`modifiers` and does not type-check against the current `AbiFunction`
(`lib.rs:102-126`).  The spec-modelled folding produces
`kind = view, modifiers = [payable]` on the same input. -/
theorem v0_2_migration_keeps_flat_booleans :
    (v0_2_function_to_current_asWritten exV02Fn).is_view = true ∧
    (v0_2_function_to_current_asWritten exV02Fn).is_payable = true ∧
    (v0_2_function_fold_spec exV02Fn).kind = .view ∧
    (v0_2_function_fold_spec exV02Fn).modifiers = [.payable] :=
  ⟨rfl, rfl, rfl, rfl⟩

/-- C3 witness: the single-entry half of `combine_singleton` at a
concrete entry. -/
theorem combine_singleton_witness :
    combine [exEntryS] =
      .ok ⟨exEntryS.schema_version,
           ⟨sortLe fnLe exEntryS.body.functions,
            intoRootSchemaForString (collectDefs [] exEntryS.body.root_schema)⟩⟩ :=
  combine_singleton.2 exEntryS

/-- C5 witness: three entries tagged `0.3.0` with function name sets
`{b, a}`, `{c}`, `{}` combine into one `0.3.0` entry with functions
ordered `[a, b, c]`. -/
theorem combine_uniform_version_sorts_functions_witness :
    (∀ e ∈ [exEntryBA, exEntryC, exEntryE], e.schema_version = "0.3.0") ∧
    (∃ r, combine [exEntryBA, exEntryC, exEntryE] = .ok r ∧ r.schema_version = "0.3.0" ∧
      r.body.functions.Perm
        (([exEntryBA, exEntryC, exEntryE]).flatMap fun e => e.body.functions) ∧
      r.body.functions.Pairwise fun f g => fnLe f g = true) ∧
    combine [exEntryBA, exEntryC, exEntryE] =
      .ok ⟨"0.3.0", ⟨[mkFn "a", mkFn "b", mkFn "c"], intoRootSchemaForString []⟩⟩ :=
  ⟨by decide,
   combine_uniform_version_sorts_functions exEntryBA [exEntryC, exEntryE] "0.3.0" (by decide),
   by rfl⟩

/-- C4 witness: entries tagged `["0.3.0", "0.2.0", "0.3.0", "0.4.0"]`
fail with `SchemaVersionConflict { expected: "0.3.0",
found: ["0.2.0", "0.4.0"] }` (sorted, deduplicated). -/
theorem combine_conflict_reports_sorted_versions_witness :
    (∃ e ∈ [exEntry02, exEntry03b, exEntry04],
      e.schema_version ≠ exEntry03a.schema_version) ∧
    (∃ found,
      combine [exEntry03a, exEntry02, exEntry03b, exEntry04] =
        .err (.schemaVersionConflict exEntry03a.schema_version found) ∧
      (∀ s, s ∈ found ↔
        (s ≠ exEntry03a.schema_version ∧
         ∃ e ∈ [exEntry02, exEntry03b, exEntry04], e.schema_version = s)) ∧
      found.Pairwise strPairLt) ∧
    combine [exEntry03a, exEntry02, exEntry03b, exEntry04] =
      .err (.schemaVersionConflict "0.3.0" ["0.2.0", "0.4.0"]) :=
  ⟨by decide,
   combine_conflict_reports_sorted_versions exEntry03a [exEntry02, exEntry03b, exEntry04]
     (by decide),
   by rfl⟩

theorem listIsPre_append_self (n t : List Char) : listIsPre n (n ++ t) = true := by
  induction n with
  | nil => rfl
  | cons a as ih => simp [listIsPre, ih]

theorem listHasSub_suffix (n : List Char) : ∀ x : List Char, listHasSub n (x ++ n) = true := by
  intro x
  induction x with
  | nil =>
    cases n with
    | nil => rfl
    | cons c cs =>
      have h := listIsPre_append_self (c :: cs) []
      simp only [List.append_nil] at h
      simp [listHasSub, h]
  | cons a x ih => simp [listHasSub, ih]

/-- A string is a substring of anything it is appended to. -/
theorem strHasSub_suffix (n x : String) : strHasSub n (x ++ n) = true := by
  simp only [strHasSub, String.data_append]
  exact listHasSub_suffix n.data x.data

theorem dispatchVersion_unsupported (v : Version)
    (h01 : ¬(v.major = 0 ∧ v.minor = 1))
    (h02 : ¬(v.major = 0 ∧ v.minor = 2))
    (h03 : ¬(v.major = 0 ∧ v.minor = 3)) :
    dispatchVersion v = .error ("Unsupported ABI schema version: " ++ versionToString v) := by
  obtain ⟨ma, mi, pa⟩ := v
  cases ma with
  | succ m => rfl
  | zero =>
    cases mi with
    | zero => rfl
    | succ m1 =>
      cases m1 with
      | zero => exact absurd ⟨rfl, rfl⟩ h01
      | succ m2 =>
        cases m2 with
        | zero => exact absurd ⟨rfl, rfl⟩ h02
        | succ m3 =>
          cases m3 with
          | zero => exact absurd ⟨rfl, rfl⟩ h03
          | succ m4 => rfl

/-- C8 counterexample: on `schema_version = "99.99.99"` the
`from_value` dispatch fails with a message that names the offending
version but does not mention either supported boundary (`0.1` or `0.3`),
refuting the claim that the error names the supported boundary
versions. -/
theorem from_value_unsupported_version_cx :
    from_value_dispatch exDoc9999 = .error "Unsupported ABI schema version: 99.99.99" ∧
    strHasSub "99.99.99" "Unsupported ABI schema version: 99.99.99" = true ∧
    strHasSub "0.1" "Unsupported ABI schema version: 99.99.99" = false ∧
    strHasSub "0.3" "Unsupported ABI schema version: 99.99.99" = false := by
  refine ⟨?_, by decide, by decide, by decide⟩
  rfl

/-- C8 (amended): a document whose `schema_version` is valid semver with
an unsupported `(major, minor)` pair is rejected deterministically on
both parse routes, and the error names the offending version; the legacy
`from_value` error does not include the supported boundary versions
(only the strict current-version deserializer's error names a supported
line, `~0.3`). -/
theorem unsupported_version_errors
    (fields : List (String × Json)) (s : String) (v : Version)
    (hf : jLookup "schema_version" fields = some (.str s))
    (hp : parseSemver s = some v)
    (h01 : ¬(v.major = 0 ∧ v.minor = 1))
    (h02 : ¬(v.major = 0 ∧ v.minor = 2))
    (h03 : ¬(v.major = 0 ∧ v.minor = 3)) :
    from_value_dispatch (.obj fields) =
      .error ("Unsupported ABI schema version: " ++ versionToString v) ∧
    strHasSub (versionToString v)
      ("Unsupported ABI schema version: " ++ versionToString v) = true ∧
    ∃ msg, ensure_current_version s = .error msg := by
  refine ⟨?_, strHasSub_suffix _ _, ?_⟩
  · simp only [from_value_dispatch, hf, Option.getD_some, hp]
    exact dispatchVersion_unsupported v h01 h02 h03
  · have hcond : v.major ≠ SCHEMA_SEMVER.major ∨ v.minor ≠ SCHEMA_SEMVER.minor := by
      by_contra hc
      push_neg at hc
      exact h03 ⟨hc.1, hc.2⟩
    simp only [ensure_current_version, hp, if_pos hcond]
    by_cases hlt : versionLtB v SCHEMA_SEMVER = true
    · rw [if_pos hlt]
      exact ⟨_, rfl⟩
    · rw [if_neg hlt]
      exact ⟨_, rfl⟩

/-- C8 witness: `"99.99.99"` and `"0.0.1"` are both rejected; the strict
parser's message for `"0.0.1"` names the current `~0.3` line and
recommends re-generating the ABI. -/
theorem unsupported_version_errors_witness :
    (from_value_dispatch exDoc9999 =
      .error ("Unsupported ABI schema version: " ++ versionToString ⟨99, 99, 99⟩) ∧
     strHasSub (versionToString ⟨99, 99, 99⟩)
       ("Unsupported ABI schema version: " ++ versionToString ⟨99, 99, 99⟩) = true ∧
     ∃ msg, ensure_current_version "99.99.99" = .error msg) ∧
    (∃ msg, ensure_current_version "0.0.1" = .error msg) ∧
    ensure_current_version "0.0.1" =
      .error ("expected `schema_version` to be ~0.3, but got 0.0.1: "
        ++ "consider re-generating your ABI file with a newer version of SDK and cargo-near") :=
  ⟨unsupported_version_errors _ "99.99.99" ⟨99, 99, 99⟩ rfl (by decide)
     (by decide) (by decide) (by decide),
   (unsupported_version_errors [("schema_version", .str "0.0.1")] "0.0.1" ⟨0, 0, 1⟩ rfl
     (by decide) (by decide) (by decide) (by decide)).2.2,
   by rfl⟩

/-- C9 counterexample: a current-version document whose `metadata` object
carries an unknown field parses successfully — the unknown field is
absorbed into the flattened `other` map instead of being rejected,
refuting the claim that every nested record rejects unknown fields. -/
theorem metadata_absorbs_unknown_field_cx :
    parseAbiRoot (.obj [("schema_version", .str "0.3.0"),
        ("metadata", .obj [("strange_field", .str "xyz")]),
        ("body", .obj [("functions", .arr []), ("root_schema", .obj [])])]) =
      .ok ⟨"0.3.0", ⟨none, none, [], none, none, [("strange_field", "xyz")]⟩,
           ⟨[], .obj []⟩⟩ := by
  rfl

/-- C9 (amended): the records marked `deny_unknown_fields` (`AbiRoot`,
`AbiBody`, `AbiFunction`, `AbiParameters`, `AbiType`,
`AbiJsonParameter`, `AbiBorshParameter`) reject any unknown field, but
the `metadata` object absorbs unknown string-valued fields into its
flattened `other` map, and `BuildInfo` ignores unknown fields (serde's
default). -/
theorem unknown_field_rejection_scope (fields : List (String × Json)) :
    (keysIn fields ["schema_version", "metadata", "body"] = false →
      parseAbiRoot (.obj fields) = .error "unknown field") ∧
    (keysIn fields ["functions", "root_schema"] = false →
      parseAbiBody (.obj fields) = .error "unknown field") ∧
    (keysIn fields fnKeys = false →
      parseAbiFunction (.obj fields) = .error "unknown field") ∧
    (keysIn fields ["serialization_type", "args"] = false →
      parseAbiParameters (.obj fields) = .error "unknown field") ∧
    (keysIn fields ["serialization_type", "type_schema"] = false →
      parseAbiType (.obj fields) = .error "unknown field") ∧
    (keysIn fields ["name", "type_schema"] = false →
      parseAbiJsonParameter (.obj fields) = .error "unknown field" ∧
      parseAbiBorshParameter (.obj fields) = .error "unknown field") ∧
    parseAbiMetadata (.obj [("strange_field", .str "xyz")]) =
      .ok ⟨none, none, [], none, none, [("strange_field", "xyz")]⟩ ∧
    parseBuildInfo (.obj [("compiler", .str "c"), ("builder", .str "b"), ("extra", .num 1)]) =
      .ok ⟨"c", "b", none⟩ := by
  refine ⟨?_, ?_, ?_, ?_, ?_, ?_, rfl, rfl⟩
  · intro h; simp [parseAbiRoot, h]
  · intro h; simp [parseAbiBody, h]
  · intro h; simp [parseAbiFunction, h]
  · intro h; simp [parseAbiParameters, h]
  · intro h; simp [parseAbiType, h]
  · intro h; exact ⟨by simp [parseAbiJsonParameter, h], by simp [parseAbiBorshParameter, h]⟩

/-- C9 witness: the rejection half of `unknown_field_rejection_scope`
instantiated at an object with a single unknown key. -/
theorem unknown_field_rejection_scope_witness :
    parseAbiRoot (.obj [("zzz", Json.null)]) = .error "unknown field" ∧
    parseAbiBody (.obj [("zzz", Json.null)]) = .error "unknown field" ∧
    parseAbiFunction (.obj [("zzz", Json.null)]) = .error "unknown field" ∧
    parseAbiParameters (.obj [("zzz", Json.null)]) = .error "unknown field" ∧
    parseAbiType (.obj [("zzz", Json.null)]) = .error "unknown field" ∧
    parseAbiJsonParameter (.obj [("zzz", Json.null)]) = .error "unknown field" ∧
    parseAbiBorshParameter (.obj [("zzz", Json.null)]) = .error "unknown field" :=
  have h := unknown_field_rejection_scope [("zzz", Json.null)]
  ⟨h.1 rfl, h.2.1 rfl, h.2.2.1 rfl, h.2.2.2.1 rfl, h.2.2.2.2.1 rfl,
   (h.2.2.2.2.2.1 rfl).1, (h.2.2.2.2.2.1 rfl).2⟩

theorem strChainSorted_pairwise : ∀ (l : List String), strChainSorted l = true →
    l.Pairwise strPairLt := by
  intro l
  induction l with
  | nil => intro _; exact List.Pairwise.nil
  | cons a t ih =>
    intro h
    cases t with
    | nil => simp
    | cons b t' =>
      simp only [strChainSorted, Bool.and_eq_true] at h
      have hrest := ih h.2
      refine List.pairwise_cons.mpr ⟨?_, hrest⟩
      intro x hx
      rcases List.mem_cons.mp hx with rfl | hx'
      · exact h.1
      · have hb := (List.pairwise_cons.mp hrest).1 x hx'
        exact strLtB_trans h.1 hb

theorem jLookup_append (k : String) (l1 l2 : List (String × Json)) :
    jLookup k (l1 ++ l2) =
      match jLookup k l1 with
      | some v => some v
      | none => jLookup k l2 := by
  induction l1 with
  | nil => simp [jLookup]
  | cons p rest ih =>
    obtain ⟨k', v⟩ := p
    by_cases h : k' = k
    · simp [jLookup, h]
    · simp [jLookup, h, ih]

theorem jLookup_oField_ne {k k' : String} (h : k' ≠ k) (o : Option Json)
    (rest : List (String × Json)) :
    jLookup k (oField k' o ++ rest) = jLookup k rest := by
  cases o <;> simp [oField, jLookup, h]

theorem jLookup_oField_self (k : String) (o : Option Json) (rest : List (String × Json))
    (hrest : jLookup k rest = none) :
    jLookup k (oField k o ++ rest) = o := by
  cases o <;> simp [oField, jLookup, hrest]

theorem jLookup_oField_none {k k' : String} (h : k' ≠ k) (o : Option Json) :
    jLookup k (oField k' o) = none := by
  cases o <;> simp [oField, jLookup, h]

theorem jLookup_oField_id (k : String) (o : Option Json) :
    jLookup k (oField k o) = o := by
  cases o <;> simp [oField, jLookup]

theorem jLookup_none_of_keys {k : String} {l : List (String × Json)}
    (h : ∀ kv ∈ l, kv.1 ≠ k) : jLookup k l = none := by
  induction l with
  | nil => rfl
  | cons p rest ih =>
    simp only [jLookup, if_neg (h p (by simp))]
    exact ih (fun kv hkv => h kv (by simp [hkv]))

theorem keysIn_append (l1 l2 : List (String × Json)) (ks : List String) :
    keysIn (l1 ++ l2) ks = (keysIn l1 ks && keysIn l2 ks) := by
  simp [keysIn, List.all_append]

theorem keysIn_oField {k : String} {ks : List String} (h : ks.contains k = true)
    (o : Option Json) : keysIn (oField k o) ks = true := by
  cases o <;> simp_all [oField, keysIn]

/-- Element-wise round trip lifted to `mapM` over a serialized list. -/
theorem mapM_parse_ser {α : Type} (ser : α → Json) (parse : Json → Except String α)
    (wf : α → Bool) (hrt : ∀ x, wf x = true → parse (ser x) = .ok x) :
    ∀ xs : List α, (∀ x ∈ xs, wf x = true) → (xs.map ser).mapM parse = Except.ok xs := by
  intro xs
  induction xs with
  | nil => intro _; rfl
  | cons x rest ih =>
    intro h
    rw [List.map_cons, List.mapM_cons, hrt x (h x (by simp)), ih (fun y hy => h y (by simp [hy]))]
    rfl

/-- Element-wise round trip lifted to `Option.mapM` for untagged tries. -/
theorem mapM_some_of_map {α β : Type} (f : α → Json) (g : Json → Option β) (h : α → β)
    (hfg : ∀ x, g (f x) = some (h x)) :
    ∀ xs : List α, (xs.map f).mapM g = some (xs.map h) := by
  intro xs
  induction xs with
  | nil => rfl
  | cons x rest ih =>
    rw [List.map_cons, List.mapM_cons, hfg x, ih]
    rfl

theorem asPairStr_pair (p : String × String) :
    asPairStr (Json.arr [.str p.1, .str p.2]) = some p := rfl

theorem exBind_ok {ε α β : Type} (a : α) (f : α → Except ε β) :
    (Except.ok a >>= f : Except ε β) = f a := rfl

theorem exBind_err {ε α β : Type} (e : ε) (f : α → Except ε β) :
    ((Except.error e : Except ε α) >>= f) = .error e := rfl

theorem exMap_ok {ε α β : Type} (f : α → β) (a : α) :
    Except.map f (Except.ok a : Except ε α) = .ok (f a) := rfl

theorem asStr_str (s : String) : asStr (Json.str s) = some s := rfl

theorem parseFields_serFields (f : Fields) (hwf : wfFields f = true) :
    parseFields (serFields f) = .ok f := by
  cases f with
  | namedFields l =>
    simp only [serFields, parseFields]
    rw [mapM_some_of_map (fun p => Json.arr [.str p.1, .str p.2]) asPairStr id
      asPairStr_pair l]
    simp
  | unnamedFields l =>
    cases l with
    | nil => exact absurd hwf (by simp [wfFields])
    | cons c cs =>
      have hnone : (((c :: cs).map Json.str).mapM asPairStr) = none := by
        rw [List.map_cons, List.mapM_cons]
        rfl
      simp only [serFields, parseFields, hnone]
      rw [mapM_some_of_map Json.str asStr id asStr_str (c :: cs)]
      simp
  | empty => rfl

set_option maxRecDepth 4096 in
theorem parseDefinition_serDefinition (d : Definition) (hwf : wfDefinition d = true) :
    parseDefinition (serDefinition d) = .ok d := by
  cases d with
  | array length elements =>
    have hn : length < 4294967296 := by simpa [wfDefinition] using hwf
    have h1 : (0 : Int) ≤ (length : Int) := Int.natCast_nonneg length
    have h2 : (length : Int) < 4294967296 := by exact_mod_cast hn
    have h3 : ((length : Int)).toNat = length := Int.toNat_natCast length
    have hstep : parseDefinition (serDefinition (Definition.array length elements)) =
        parseDefArray [("length", .num length), ("elements", .str elements)] := by
      simp only [parseDefinition, serDefinition]
      simp
    have hred : parseDefArray [("length", .num length), ("elements", .str elements)] =
        (if (0 : Int) ≤ (length : Int) ∧ (length : Int) < 4294967296 then
           Except.ok (Definition.array ((length : Int)).toNat elements)
         else Except.error "invalid value: integer out of range for u32") := rfl
    rw [hstep, hred, if_pos (And.intro h1 h2), h3]
  | sequence elements => rfl
  | tuple elements =>
    simp only [serDefinition, parseDefinition]
    rw [mapM_some_of_map Json.str asStr id (fun x => rfl) elements]
    simp
  | enum variants =>
    simp only [serDefinition, parseDefinition]
    rw [mapM_some_of_map (fun p => Json.arr [.str p.1, .str p.2]) asPairStr id
      asPairStr_pair variants]
    simp
  | struct f =>
    simp only [serDefinition, parseDefinition]
    rw [parseFields_serFields f hwf]
    rfl

theorem mapM_parseDef (defs : List (String × Definition))
    (hwf : ∀ kv ∈ defs, wfDefinition kv.2 = true) :
    (defs.map fun p => (p.1, serDefinition p.2)).mapM
      (fun kv => (parseDefinition kv.2).map (fun d => (kv.1, d))) = Except.ok defs := by
  induction defs with
  | nil => rfl
  | cons kv rest ih =>
    rw [List.map_cons, List.mapM_cons, parseDefinition_serDefinition kv.2 (hwf kv (by simp)),
        ih (fun x hx => hwf x (by simp [hx]))]
    rfl

theorem parseDefsMap_ser (defs : List (String × Definition))
    (hsorted : strChainSorted (defs.map (·.1)) = true)
    (hwf : ∀ kv ∈ defs, wfDefinition kv.2 = true) :
    parseDefsMap (.obj (defs.map fun p => (p.1, serDefinition p.2))) = .ok defs := by
  have hp : defs.Pairwise kvLt := by
    have h1 := strChainSorted_pairwise _ hsorted
    rw [List.pairwise_map] at h1
    exact h1
  have hfold := foldl_insKV_of_sorted defs [] (by simpa using hp)
  simp only [List.nil_append] at hfold
  simp only [parseDefsMap, mapM_parseDef defs hwf, exBind_ok, hfold]

theorem parseContainer_ser (c : BorshSchemaContainer) (hwf : wfContainer c = true) :
    parseContainer (serContainer c) = .ok c := by
  obtain ⟨decl, defs⟩ := c
  simp only [wfContainer, Bool.and_eq_true, List.all_eq_true] at hwf
  have hsorted : strChainSorted (defs.map (·.1)) = true := hwf.1
  have hdefs : ∀ kv ∈ defs, wfDefinition kv.2 = true := fun kv hkv => hwf.2 kv hkv
  simp [serContainer, parseContainer, reqField, jLookup, getStr, exBind_ok,
    parseDefsMap_ser defs hsorted hdefs]

theorem parseAbiJsonParameter_ser (p : AbiJsonParameter) :
    parseAbiJsonParameter (serAbiJsonParameter p) = .ok p := rfl

theorem parseAbiBorshParameter_ser (p : AbiBorshParameter)
    (hwf : wfContainer p.type_schema = true) :
    parseAbiBorshParameter (serAbiBorshParameter p) = .ok p := by
  obtain ⟨name, ts⟩ := p
  simp [serAbiBorshParameter, parseAbiBorshParameter, keysIn, reqField, jLookup, getStr,
    exBind_ok, parseContainer_ser ts hwf]

theorem parseAbiType_ser (t : AbiType) (hwf : wfAbiType t = true) :
    parseAbiType (serAbiType t) = .ok t := by
  cases t with
  | json ts => rfl
  | borsh c =>
    simp [serAbiType, parseAbiType, keysIn, reqField, jLookup, getStr, exBind_ok,
      exMap_ok, parseContainer_ser c (by simpa [wfAbiType] using hwf)]

theorem parseAbiParameters_ser (p : AbiParameters)
    (hwf : match p with
           | .json _ => True
           | .borsh args => ∀ a ∈ args, wfContainer a.type_schema = true) :
    parseAbiParameters (serAbiParameters p) = .ok p := by
  cases p with
  | json args =>
    simp [serAbiParameters, parseAbiParameters, keysIn, reqField, jLookup, getStr, exBind_ok]
    show Except.map AbiParameters.json
        ((args.map serAbiJsonParameter).mapM parseAbiJsonParameter) = _
    rw [mapM_parse_ser serAbiJsonParameter parseAbiJsonParameter (fun _ => true)
      (fun x _ => parseAbiJsonParameter_ser x) args (fun x _ => rfl)]
    rfl
  | borsh args =>
    simp [serAbiParameters, parseAbiParameters, keysIn, reqField, jLookup, getStr, exBind_ok]
    show Except.map AbiParameters.borsh
        ((args.map serAbiBorshParameter).mapM parseAbiBorshParameter) = _
    rw [mapM_parse_ser serAbiBorshParameter parseAbiBorshParameter
      (fun a => wfContainer a.type_schema)
      (fun x hx => parseAbiBorshParameter_ser x hx) args (fun x hx => hwf x hx)]
    rfl

theorem parseKind_ser (k : AbiFunctionKind) : parseKind (serKind k) = .ok k := by
  cases k <;> rfl

theorem parseModifier_ser (m : AbiFunctionModifier) :
    parseModifier (serModifier m) = .ok m := by
  cases m <;> rfl

theorem getOptStr_map_str (o : Option String) : getOptStr (o.map Json.str) = .ok o := by
  cases o <;> rfl

theorem optList_modifiers (ms : List AbiFunctionModifier) :
    optList (if ms.isEmpty then none else some (.arr (ms.map serModifier))) parseModifier =
      .ok ms := by
  cases ms with
  | nil => rfl
  | cons m rest =>
    simp only [List.isEmpty_cons, Bool.false_eq_true, if_false, optList]
    exact mapM_parse_ser serModifier parseModifier (fun _ => true)
      (fun x _ => parseModifier_ser x) (m :: rest) (fun x _ => rfl)

theorem optList_abiTypes (ts : List AbiType) (h : ∀ t ∈ ts, wfAbiType t = true) :
    optList (if ts.isEmpty then none else some (.arr (ts.map serAbiType))) parseAbiType =
      .ok ts := by
  cases ts with
  | nil => rfl
  | cons t rest =>
    simp only [List.isEmpty_cons, Bool.false_eq_true, if_false, optList]
    exact mapM_parse_ser serAbiType parseAbiType wfAbiType
      parseAbiType_ser (t :: rest) h

theorem optParse_abiType (o : Option AbiType) (h : wfOptAbiType o = true) :
    optParse (o.map serAbiType) parseAbiType = .ok o := by
  cases o with
  | none => rfl
  | some t =>
    have hw : wfAbiType t = true := by simpa [wfOptAbiType] using h
    have h1 : optParse ((some t).map serAbiType) parseAbiType =
        Except.map some (parseAbiType (serAbiType t)) := by cases t <;> rfl
    rw [h1, parseAbiType_ser t hw]
    rfl

theorem optWithDefault_params (p : AbiParameters)
    (hwf : WfParamsStrict p) :
    optWithDefault (if p.is_empty then none else some (serAbiParameters p))
      AbiParameters.default parseAbiParameters = .ok p := by
  cases p with
  | json args =>
    cases args with
    | nil => rfl
    | cons a rest =>
      simp only [AbiParameters.is_empty, List.isEmpty_cons, Bool.false_eq_true, if_false,
        optWithDefault]
      exact parseAbiParameters_ser (.json (a :: rest)) trivial
  | borsh args =>
    obtain ⟨h1, h2⟩ := hwf
    cases args with
    | nil => exact absurd h1 (by simp)
    | cons a rest =>
      simp only [AbiParameters.is_empty, List.isEmpty_cons, Bool.false_eq_true, if_false,
        optWithDefault]
      exact parseAbiParameters_ser (.borsh (a :: rest)) h2

theorem parseAbiFunction_ser (f : AbiFunction) (hwf : wfFunction f = true) :
    parseAbiFunction (serAbiFunction f) = .ok f := by
  obtain ⟨name, doc, kind, modifiers, params, callbacks, callbacks_vec, result⟩ := f
  simp only [wfFunction, Bool.and_eq_true] at hwf
  obtain ⟨⟨⟨hm, hcb⟩, hcv⟩, hres⟩ := hwf
  have hp' : WfParamsStrict params := by
    cases params with
    | json _ => trivial
    | borsh args =>
      simp only [WfParamsStrict]
      simpa [List.all_eq_true, Bool.and_eq_true] using hm
  have hcb' : ∀ t ∈ callbacks, wfAbiType t = true := by
    simpa [List.all_eq_true] using hcb
  have hkeys : keysIn ([("name", Json.str name)] ++ oField "doc" (doc.map Json.str)
        ++ [("kind", serKind kind)]
        ++ oField "modifiers"
            (if modifiers.isEmpty then none else some (.arr (modifiers.map serModifier)))
        ++ oField "params" (if params.is_empty then none else some (serAbiParameters params))
        ++ oField "callbacks"
            (if callbacks.isEmpty then none else some (.arr (callbacks.map serAbiType)))
        ++ oField "callbacks_vec" (callbacks_vec.map serAbiType)
        ++ oField "result" (result.map serAbiType)) fnKeys = true := by
    simp only [List.append_assoc, keysIn_append, Bool.and_eq_true]
    exact ⟨by rfl, keysIn_oField (by rfl) _, by rfl, keysIn_oField (by rfl) _,
      keysIn_oField (by rfl) _, keysIn_oField (by rfl) _, keysIn_oField (by rfl) _,
      keysIn_oField (by rfl) _⟩
  have hname : jLookup "name" ([("name", Json.str name)] ++ oField "doc" (doc.map Json.str)
        ++ [("kind", serKind kind)]
        ++ oField "modifiers"
            (if modifiers.isEmpty then none else some (.arr (modifiers.map serModifier)))
        ++ oField "params" (if params.is_empty then none else some (serAbiParameters params))
        ++ oField "callbacks"
            (if callbacks.isEmpty then none else some (.arr (callbacks.map serAbiType)))
        ++ oField "callbacks_vec" (callbacks_vec.map serAbiType)
        ++ oField "result" (result.map serAbiType)) = some (Json.str name) := by
    simp only [List.append_assoc, List.append_eq, List.nil_append, List.cons_append, jLookup,
      jLookup_oField_ne, jLookup_oField_self, jLookup_oField_none, jLookup_oField_id,
      String.reduceEq, reduceIte, ne_eq, not_false_eq_true]
  have hdoc : jLookup "doc" ([("name", Json.str name)] ++ oField "doc" (doc.map Json.str)
        ++ [("kind", serKind kind)]
        ++ oField "modifiers"
            (if modifiers.isEmpty then none else some (.arr (modifiers.map serModifier)))
        ++ oField "params" (if params.is_empty then none else some (serAbiParameters params))
        ++ oField "callbacks"
            (if callbacks.isEmpty then none else some (.arr (callbacks.map serAbiType)))
        ++ oField "callbacks_vec" (callbacks_vec.map serAbiType)
        ++ oField "result" (result.map serAbiType)) = doc.map Json.str := by
    simp only [List.append_assoc, List.append_eq, List.nil_append, List.cons_append, jLookup,
      jLookup_oField_ne, jLookup_oField_self, jLookup_oField_none, jLookup_oField_id,
      String.reduceEq, reduceIte, ne_eq, not_false_eq_true]
  have hkind : jLookup "kind" ([("name", Json.str name)] ++ oField "doc" (doc.map Json.str)
        ++ [("kind", serKind kind)]
        ++ oField "modifiers"
            (if modifiers.isEmpty then none else some (.arr (modifiers.map serModifier)))
        ++ oField "params" (if params.is_empty then none else some (serAbiParameters params))
        ++ oField "callbacks"
            (if callbacks.isEmpty then none else some (.arr (callbacks.map serAbiType)))
        ++ oField "callbacks_vec" (callbacks_vec.map serAbiType)
        ++ oField "result" (result.map serAbiType)) = some (serKind kind) := by
    simp only [List.append_assoc, List.append_eq, List.nil_append, List.cons_append, jLookup,
      jLookup_oField_ne, jLookup_oField_self, jLookup_oField_none, jLookup_oField_id,
      String.reduceEq, reduceIte, ne_eq, not_false_eq_true]
  have hmods : jLookup "modifiers" ([("name", Json.str name)] ++ oField "doc" (doc.map Json.str)
        ++ [("kind", serKind kind)]
        ++ oField "modifiers"
            (if modifiers.isEmpty then none else some (.arr (modifiers.map serModifier)))
        ++ oField "params" (if params.is_empty then none else some (serAbiParameters params))
        ++ oField "callbacks"
            (if callbacks.isEmpty then none else some (.arr (callbacks.map serAbiType)))
        ++ oField "callbacks_vec" (callbacks_vec.map serAbiType)
        ++ oField "result" (result.map serAbiType)) =
      (if modifiers.isEmpty then none else some (.arr (modifiers.map serModifier))) := by
    simp only [List.append_assoc, List.append_eq, List.nil_append, List.cons_append, jLookup,
      jLookup_oField_ne, jLookup_oField_self, jLookup_oField_none, jLookup_oField_id,
      String.reduceEq, reduceIte, ne_eq, not_false_eq_true]
  have hparams : jLookup "params" ([("name", Json.str name)] ++ oField "doc" (doc.map Json.str)
        ++ [("kind", serKind kind)]
        ++ oField "modifiers"
            (if modifiers.isEmpty then none else some (.arr (modifiers.map serModifier)))
        ++ oField "params" (if params.is_empty then none else some (serAbiParameters params))
        ++ oField "callbacks"
            (if callbacks.isEmpty then none else some (.arr (callbacks.map serAbiType)))
        ++ oField "callbacks_vec" (callbacks_vec.map serAbiType)
        ++ oField "result" (result.map serAbiType)) =
      (if params.is_empty then none else some (serAbiParameters params)) := by
    simp only [List.append_assoc, List.append_eq, List.nil_append, List.cons_append, jLookup,
      jLookup_oField_ne, jLookup_oField_self, jLookup_oField_none, jLookup_oField_id,
      String.reduceEq, reduceIte, ne_eq, not_false_eq_true]
  have hcbs : jLookup "callbacks" ([("name", Json.str name)] ++ oField "doc" (doc.map Json.str)
        ++ [("kind", serKind kind)]
        ++ oField "modifiers"
            (if modifiers.isEmpty then none else some (.arr (modifiers.map serModifier)))
        ++ oField "params" (if params.is_empty then none else some (serAbiParameters params))
        ++ oField "callbacks"
            (if callbacks.isEmpty then none else some (.arr (callbacks.map serAbiType)))
        ++ oField "callbacks_vec" (callbacks_vec.map serAbiType)
        ++ oField "result" (result.map serAbiType)) =
      (if callbacks.isEmpty then none else some (.arr (callbacks.map serAbiType))) := by
    simp only [List.append_assoc, List.append_eq, List.nil_append, List.cons_append, jLookup,
      jLookup_oField_ne, jLookup_oField_self, jLookup_oField_none, jLookup_oField_id,
      String.reduceEq, reduceIte, ne_eq, not_false_eq_true]
  have hcbv : jLookup "callbacks_vec" ([("name", Json.str name)] ++ oField "doc" (doc.map Json.str)
        ++ [("kind", serKind kind)]
        ++ oField "modifiers"
            (if modifiers.isEmpty then none else some (.arr (modifiers.map serModifier)))
        ++ oField "params" (if params.is_empty then none else some (serAbiParameters params))
        ++ oField "callbacks"
            (if callbacks.isEmpty then none else some (.arr (callbacks.map serAbiType)))
        ++ oField "callbacks_vec" (callbacks_vec.map serAbiType)
        ++ oField "result" (result.map serAbiType)) = callbacks_vec.map serAbiType := by
    simp only [List.append_assoc, List.append_eq, List.nil_append, List.cons_append, jLookup,
      jLookup_oField_ne, jLookup_oField_self, jLookup_oField_none, jLookup_oField_id,
      String.reduceEq, reduceIte, ne_eq, not_false_eq_true]
  have hres2 : jLookup "result" ([("name", Json.str name)] ++ oField "doc" (doc.map Json.str)
        ++ [("kind", serKind kind)]
        ++ oField "modifiers"
            (if modifiers.isEmpty then none else some (.arr (modifiers.map serModifier)))
        ++ oField "params" (if params.is_empty then none else some (serAbiParameters params))
        ++ oField "callbacks"
            (if callbacks.isEmpty then none else some (.arr (callbacks.map serAbiType)))
        ++ oField "callbacks_vec" (callbacks_vec.map serAbiType)
        ++ oField "result" (result.map serAbiType)) = result.map serAbiType := by
    simp only [List.append_assoc, List.append_eq, List.nil_append, List.cons_append, jLookup,
      jLookup_oField_ne, jLookup_oField_self, jLookup_oField_none, jLookup_oField_id,
      String.reduceEq, reduceIte, ne_eq, not_false_eq_true]
  simp only [serAbiFunction, parseAbiFunction]
  simp only [hkeys, reduceIte, reqField, hname, hdoc, hkind, hmods, hparams, hcbs, hcbv,
    hres2, exBind_ok, getStr, getOptStr_map_str, parseKind_ser kind, optList_modifiers,
    optList_abiTypes callbacks hcb', optWithDefault_params params hp',
    optParse_abiType callbacks_vec hcv, optParse_abiType result hres]

theorem parseBuildInfo_ser (b : BuildInfo) : parseBuildInfo (serBuildInfo b) = .ok b := by
  obtain ⟨compiler, builder, image⟩ := b
  cases image <;> rfl

theorem optParse_buildInfo (o : Option BuildInfo) :
    optParse (o.map serBuildInfo) parseBuildInfo = .ok o := by
  cases o with
  | none => rfl
  | some b =>
    have h1 : optParse ((some b).map serBuildInfo) parseBuildInfo =
        Except.map some (parseBuildInfo (serBuildInfo b)) := rfl
    rw [h1, parseBuildInfo_ser b]
    rfl

theorem optList_strings (l : List String) :
    optList (if l.isEmpty then none else some (.arr (l.map Json.str))) getStr = .ok l := by
  cases l with
  | nil => rfl
  | cons a rest =>
    simp only [List.isEmpty_cons, Bool.false_eq_true, if_false, optList]
    exact mapM_parse_ser Json.str getStr (fun _ => true)
      (fun x _ => rfl) (a :: rest) (fun x _ => rfl)

theorem mapM_other (l : List (String × String)) :
    (l.map fun p => (p.1, Json.str p.2)).mapM
      (fun kv => (getStr kv.2).map (fun s => (kv.1, s))) = Except.ok l := by
  induction l with
  | nil => rfl
  | cons p rest ih =>
    rw [List.map_cons, List.mapM_cons, ih]
    rfl

theorem filter_oField_known {k : String} (h : k ∈ metadataKeys)
    (o : Option Json) :
    (oField k o).filter (fun kv => !(metadataKeys.contains kv.1)) = [] := by
  cases o <;> simp [oField, h]

theorem parseAbiMetadata_ser (m : AbiMetadata) (hwf : wfMetadata m = true) :
    parseAbiMetadata (serAbiMetadata m) = .ok m := by
  obtain ⟨mname, mversion, mauthors, mbuild, mwasm, mother⟩ := m
  simp only [wfMetadata, Bool.and_eq_true, List.all_eq_true] at hwf
  obtain ⟨hsorted, hdisj⟩ := hwf
  have hoth : ∀ kk ∈ metadataKeys,
      jLookup kk (mother.map fun p => (p.1, Json.str p.2)) = none := by
    intro kk hkk
    apply jLookup_none_of_keys
    intro kv hkv
    obtain ⟨p, hp, hpe⟩ := List.mem_map.mp hkv
    have hnd := hdisj p hp
    intro hcon
    rw [← hpe] at hcon
    simp only at hcon
    rw [hcon] at hnd
    simp only [Bool.not_eq_true'] at hnd
    have hmem : metadataKeys.contains kk = true := by simpa using hkk
    rw [hmem] at hnd
    exact Bool.noConfusion hnd
  have hn1 := hoth "name" (by simp [metadataKeys])
  have hn2 := hoth "version" (by simp [metadataKeys])
  have hn3 := hoth "authors" (by simp [metadataKeys])
  have hn4 := hoth "build" (by simp [metadataKeys])
  have hn5 := hoth "wasm_hash" (by simp [metadataKeys])
  have hname : jLookup "name" (oField "name" (mname.map Json.str)
      ++ oField "version" (mversion.map Json.str)
      ++ oField "authors" (if mauthors.isEmpty then none else some (.arr (mauthors.map Json.str)))
      ++ oField "build" (mbuild.map serBuildInfo)
      ++ oField "wasm_hash" (mwasm.map Json.str)
      ++ mother.map (fun p => (p.1, Json.str p.2))) = mname.map Json.str := by
    simp only [List.append_assoc, List.append_eq, List.nil_append, List.cons_append, jLookup,
      jLookup_oField_ne, jLookup_oField_self, jLookup_oField_none, jLookup_oField_id,
      String.reduceEq, reduceIte, ne_eq, not_false_eq_true, hn1]
  have hversion : jLookup "version" (oField "name" (mname.map Json.str)
      ++ oField "version" (mversion.map Json.str)
      ++ oField "authors" (if mauthors.isEmpty then none else some (.arr (mauthors.map Json.str)))
      ++ oField "build" (mbuild.map serBuildInfo)
      ++ oField "wasm_hash" (mwasm.map Json.str)
      ++ mother.map (fun p => (p.1, Json.str p.2))) = mversion.map Json.str := by
    simp only [List.append_assoc, List.append_eq, List.nil_append, List.cons_append, jLookup,
      jLookup_oField_ne, jLookup_oField_self, jLookup_oField_none, jLookup_oField_id,
      String.reduceEq, reduceIte, ne_eq, not_false_eq_true, hn2]
  have hauthors : jLookup "authors" (oField "name" (mname.map Json.str)
      ++ oField "version" (mversion.map Json.str)
      ++ oField "authors" (if mauthors.isEmpty then none else some (.arr (mauthors.map Json.str)))
      ++ oField "build" (mbuild.map serBuildInfo)
      ++ oField "wasm_hash" (mwasm.map Json.str)
      ++ mother.map (fun p => (p.1, Json.str p.2))) =
      (if mauthors.isEmpty then none else some (.arr (mauthors.map Json.str))) := by
    simp only [List.append_assoc, List.append_eq, List.nil_append, List.cons_append, jLookup,
      jLookup_oField_ne, jLookup_oField_self, jLookup_oField_none, jLookup_oField_id,
      String.reduceEq, reduceIte, ne_eq, not_false_eq_true, hn3]
  have hbuild : jLookup "build" (oField "name" (mname.map Json.str)
      ++ oField "version" (mversion.map Json.str)
      ++ oField "authors" (if mauthors.isEmpty then none else some (.arr (mauthors.map Json.str)))
      ++ oField "build" (mbuild.map serBuildInfo)
      ++ oField "wasm_hash" (mwasm.map Json.str)
      ++ mother.map (fun p => (p.1, Json.str p.2))) = mbuild.map serBuildInfo := by
    simp only [List.append_assoc, List.append_eq, List.nil_append, List.cons_append, jLookup,
      jLookup_oField_ne, jLookup_oField_self, jLookup_oField_none, jLookup_oField_id,
      String.reduceEq, reduceIte, ne_eq, not_false_eq_true, hn4]
  have hwasm : jLookup "wasm_hash" (oField "name" (mname.map Json.str)
      ++ oField "version" (mversion.map Json.str)
      ++ oField "authors" (if mauthors.isEmpty then none else some (.arr (mauthors.map Json.str)))
      ++ oField "build" (mbuild.map serBuildInfo)
      ++ oField "wasm_hash" (mwasm.map Json.str)
      ++ mother.map (fun p => (p.1, Json.str p.2))) = mwasm.map Json.str := by
    simp only [List.append_assoc, List.append_eq, List.nil_append, List.cons_append, jLookup,
      jLookup_oField_ne, jLookup_oField_self, jLookup_oField_none, jLookup_oField_id,
      String.reduceEq, reduceIte, ne_eq, not_false_eq_true, hn5]
  have hfilter : (oField "name" (mname.map Json.str)
      ++ oField "version" (mversion.map Json.str)
      ++ oField "authors" (if mauthors.isEmpty then none else some (.arr (mauthors.map Json.str)))
      ++ oField "build" (mbuild.map serBuildInfo)
      ++ oField "wasm_hash" (mwasm.map Json.str)
      ++ mother.map (fun p => (p.1, Json.str p.2))).filter
        (fun kv => !(metadataKeys.contains kv.1)) =
      mother.map (fun p => (p.1, Json.str p.2)) := by
    have hf1 := filter_oField_known (k := "name") (by simp [metadataKeys])
      (mname.map Json.str)
    have hf2 := filter_oField_known (k := "version") (by simp [metadataKeys])
      (mversion.map Json.str)
    have hf3 := filter_oField_known (k := "authors") (by simp [metadataKeys])
      (if mauthors.isEmpty then none else some (.arr (mauthors.map Json.str)))
    have hf4 := filter_oField_known (k := "build") (by simp [metadataKeys])
      (mbuild.map serBuildInfo)
    have hf5 := filter_oField_known (k := "wasm_hash") (by simp [metadataKeys])
      (mwasm.map Json.str)
    simp only [List.filter_append, hf1, hf2, hf3, hf4, hf5, List.nil_append]
    apply List.filter_eq_self.mpr
    intro kv hkv
    obtain ⟨p, hp, hpe⟩ := List.mem_map.mp hkv
    rw [← hpe]
    simpa using hdisj p hp
  have hpairs : mother.Pairwise kvLt := by
    have h1 := strChainSorted_pairwise _ hsorted
    rw [List.pairwise_map] at h1
    exact h1
  have hfold := foldl_insKV_of_sorted mother [] (by simpa using hpairs)
  simp only [List.nil_append] at hfold
  simp only [serAbiMetadata, parseAbiMetadata]
  simp only [hname, hversion, hauthors, hbuild, hwasm, hfilter, exBind_ok,
    getOptStr_map_str, optList_strings, optParse_buildInfo, mapM_other, hfold]

theorem parseAbiBody_ser (b : AbiBody)
    (hwf : ∀ f ∈ b.functions, wfFunction f = true) :
    parseAbiBody (serAbiBody b) = .ok b := by
  obtain ⟨functions, root_schema⟩ := b
  simp only [serAbiBody, parseAbiBody, keysIn, reqField, jLookup, getStr, exBind_ok]
  simp only [String.reduceEq, reduceIte, List.all_cons, List.all_nil, List.contains_cons]
  simp
  show (Except.map (fun fns => AbiBody.mk fns root_schema)
      ((functions.map serAbiFunction).mapM parseAbiFunction) : Except String AbiBody) = _
  rw [mapM_parse_ser serAbiFunction parseAbiFunction wfFunction
    parseAbiFunction_ser functions (by simpa using hwf)]
  rfl

theorem ensure_ok_eq {s a : String} (h : ensure_current_version s = .ok a) : a = s := by
  cases hp : parseSemver s with
  | none =>
    simp only [ensure_current_version, hp] at h
    exact Except.noConfusion h
  | some v =>
    simp only [ensure_current_version, hp] at h
    by_cases hc : (v.major ≠ SCHEMA_SEMVER.major ∨ v.minor ≠ SCHEMA_SEMVER.minor)
    · rw [if_pos hc] at h
      by_cases hlt : versionLtB v SCHEMA_SEMVER = true
      · rw [if_pos hlt] at h
        exact Except.noConfusion h
      · rw [if_neg hlt] at h
        exact Except.noConfusion h
    · rw [if_neg hc] at h
      injection h with h'
      exact h'.symm

/-- C7 (amended): serializing a well-formed current-version `AbiRoot` to
the interchange format and parsing the result yields the original value,
where well-formed (`wfRoot`) requires a current `schema_version`,
metadata whose flattened map is canonical and collision-free, and
functions whose Borsh parameter lists are non-empty (an empty Borsh
parameter list is skipped by `skip_serializing_if` and re-parses as the
default empty JSON list, breaking the round trip). -/
theorem parseAbiRoot_ser (r : AbiRoot) (hwf : wfRoot r = true) :
    parseAbiRoot (serAbiRoot r) = .ok r := by
  obtain ⟨schema_version, metadata, body⟩ := r
  simp only [wfRoot, Bool.and_eq_true] at hwf
  obtain ⟨⟨hver, hmeta⟩, hfns⟩ := hwf
  have hok : ensure_current_version schema_version = .ok schema_version := by
    cases h : ensure_current_version schema_version with
    | ok a =>
      have ha : a = schema_version := ensure_ok_eq h
      rw [ha]
    | error e => rw [h] at hver; exact Bool.noConfusion hver
  simp only [serAbiRoot, parseAbiRoot, keysIn, reqField, jLookup, getStr]
  simp only [String.reduceEq, reduceIte, List.all_cons, List.all_nil, List.contains_cons]
  simp only [List.contains_nil, Bool.or_false, Bool.or_true, Bool.true_or, Bool.and_self,
    Bool.and_true, Bool.true_and, exBind_ok]
  simp
  simp only [hok, exBind_ok,
    parseAbiMetadata_ser metadata hmeta,
    parseAbiBody_ser body (by simpa [List.all_eq_true] using hfns)]

theorem oBind_some {α β : Type} (a : α) (f : α → Option β) : (some a >>= f) = f a := rfl

theorem oBind_none {α β : Type} (f : α → Option β) : ((none : Option α) >>= f) = none := rfl

/-- C7 witness: a root with documented view/call functions, modifiers,
JSON and Borsh parameter lists, callbacks, results and populated metadata
survives the round trip. -/
theorem parseAbiRoot_ser_witness :
    wfRoot exGoodRoot = true ∧
    parseAbiRoot (serAbiRoot exGoodRoot) = .ok exGoodRoot :=
  ⟨rfl, parseAbiRoot_ser exGoodRoot rfl⟩

/-- C7 counterexample: a well-formed root whose function has an *empty
Borsh* parameter list — explicitly included by the claim — does not
survive the round trip: the parameter list comes back as the default
empty JSON list, so the parsed value differs from the original. -/
theorem roundtrip_empty_borsh_params_cx :
    parseAbiRoot (serAbiRoot exBadRoot) = .ok exBadRootParsed ∧
    (exBadRoot.body.functions.map fun f => paramsIsBorsh f.params) = [true] ∧
    (exBadRootParsed.body.functions.map fun f => paramsIsBorsh f.params) = [false] ∧
    exBadRootParsed ≠ exBadRoot := by
  refine ⟨rfl, rfl, rfl, ?_⟩
  intro h
  have h2 := congrArg (fun r => r.body.functions.map fun f => paramsIsBorsh f.params) h
  simp only [exBadRoot, exBadRootParsed, List.map_cons, List.map_nil, paramsIsBorsh] at h2
  exact absurd h2 (by decide)

theorem metadata_reinterpret_id (m : AbiMetadata) (hm : wfMetadata m = true) :
    metadata_reinterpret m = some m := by
  simp [metadata_reinterpret, parseAbiMetadata_ser m hm, Except.toOption]

/-- C6: for every v0.1 or v0.2 document whose migration hop succeeds,
the migrated document's metadata is field-for-field identical to the
input document's metadata (the metadata is only re-serialized and
re-parsed between structurally identical metadata types). -/
theorem migration_preserves_metadata :
    (∀ (r : V01.AbiRoot) (out : V02.AbiRoot), wfMetadata r.metadata = true →
      v0_1_to_v0_2 r = some out → out.metadata = r.metadata) ∧
    (∀ (r : V02.AbiRoot) (out : AbiRootAsWritten), wfMetadata r.metadata = true →
      v0_2_to_current_asWritten r = some out → out.metadata = r.metadata) := by
  constructor
  · intro r out hm hmig
    simp only [v0_1_to_v0_2, metadata_reinterpret_id r.metadata hm, oBind_some] at hmig
    cases hfs : r.body.functions.mapM v0_1_function_to_v0_2 with
    | none => rw [hfs] at hmig; exact Option.noConfusion hmig
    | some fs =>
      rw [hfs] at hmig
      simp only [oBind_some] at hmig
      injection hmig with h
      rw [← h]
  · intro r out hm hmig
    simp only [v0_2_to_current_asWritten, metadata_reinterpret_id r.metadata hm,
      oBind_some] at hmig
    injection hmig with h
    rw [← h]

/-- C6 witness: both migration hops at concrete roots carrying fully
populated metadata. -/
theorem migration_preserves_metadata_witness :
    v0_1_to_v0_2 exV01Root = some exV01Migrated ∧
    exV01Migrated.metadata = exV01Root.metadata ∧
    v0_2_to_current_asWritten exV02Root = some exV02Migrated ∧
    exV02Migrated.metadata = exV02Root.metadata :=
  ⟨rfl, migration_preserves_metadata.1 exV01Root exV01Migrated rfl rfl,
   rfl, migration_preserves_metadata.2 exV02Root exV02Migrated rfl rfl⟩

theorem mapM_json_of_uniform (ps : List V01.AbiParameter)
    (h : ∀ p ∈ ps, v01TagIsJson p.typ = true) :
    ∃ args, ps.mapM (fun p =>
        (to_json_schema p.typ).map (fun ts => V02.AbiJsonParameter.mk p.name ts)) = some args ∧
      args.map (·.name) = ps.map (·.name) := by
  induction ps with
  | nil => exact ⟨[], rfl, rfl⟩
  | cons p rest ih =>
    obtain ⟨args, hm, hn⟩ := ih (fun q hq => h q (by simp [hq]))
    have hp := h p (by simp)
    cases hty : p.typ with
    | json ts =>
      refine ⟨⟨p.name, ts⟩ :: args, ?_, by simp [hn]⟩
      have hx : to_json_schema p.typ = some ts := by rw [hty]; rfl
      rw [List.mapM_cons]
      simp only [hx, hm]
      rfl
    | borsh ts => rw [hty] at hp; exact Bool.noConfusion hp

theorem mapM_borsh_of_uniform (ps : List V01.AbiParameter)
    (h : ∀ p ∈ ps, v01TagIsJson p.typ = false) :
    ∃ args, ps.mapM (fun p =>
        (to_borsh_schema p.typ).map (fun ts => V02.AbiBorshParameter.mk p.name ts)) = some args ∧
      args.map (·.name) = ps.map (·.name) := by
  induction ps with
  | nil => exact ⟨[], rfl, rfl⟩
  | cons p rest ih =>
    obtain ⟨args, hm, hn⟩ := ih (fun q hq => h q (by simp [hq]))
    have hp := h p (by simp)
    cases hty : p.typ with
    | borsh ts =>
      refine ⟨⟨p.name, ts⟩ :: args, ?_, by simp [hn]⟩
      have hx : to_borsh_schema p.typ = some ts := by rw [hty]; rfl
      rw [List.mapM_cons]
      simp only [hx, hm]
      rfl
    | json ts => rw [hty] at hp; exact Bool.noConfusion hp

theorem mapM_json_none_of_borsh (ps : List V01.AbiParameter)
    (h : ∃ p ∈ ps, v01TagIsJson p.typ = false) :
    ps.mapM (fun p =>
      (to_json_schema p.typ).map (fun ts => V02.AbiJsonParameter.mk p.name ts)) = none := by
  induction ps with
  | nil => simp at h
  | cons q rest ih =>
    rw [List.mapM_cons]
    cases hty : q.typ with
    | borsh ts12 => simp [to_json_schema]
    | json ts12 =>
      obtain ⟨p, hp, hpf⟩ := h
      rcases List.mem_cons.mp hp with rfl | hp'
      · rw [hty] at hpf; exact Bool.noConfusion hpf
      · rw [ih ⟨p, hp', hpf⟩]
        simp [to_json_schema]

theorem mapM_borsh_none_of_json (ps : List V01.AbiParameter)
    (h : ∃ p ∈ ps, v01TagIsJson p.typ = true) :
    ps.mapM (fun p =>
      (to_borsh_schema p.typ).map (fun ts => V02.AbiBorshParameter.mk p.name ts)) = none := by
  induction ps with
  | nil => simp at h
  | cons q rest ih =>
    rw [List.mapM_cons]
    cases hty : q.typ with
    | json ts12 => simp [to_borsh_schema]
    | borsh ts12 =>
      obtain ⟨p, hp, hpf⟩ := h
      rcases List.mem_cons.mp hp with rfl | hp'
      · rw [hty] at hpf; exact Bool.noConfusion hpf
      · rw [ih ⟨p, hp', hpf⟩]
        simp [to_borsh_schema]

/-- C2 (amended): the v0.1-to-v0.2 migration infers the parameter list's
shared serialization class from the first parameter (Json when the list
is empty) and re-tags every parameter to that class, preserving names
and order; if any later parameter carries the opposite tag the migration
panics (the `to_json_schema`/`to_borsh_schema` `panic!` calls, modelled
as `none`) — it does not return a structured error (no
`MixedParameterSerialization` value exists in the code) and does not
coerce or drop parameters. -/
theorem v0_1_param_class_inference (f : V01.AbiFunction) :
    (f.params = [] → ∃ g, v0_1_function_to_v0_2 f = some g ∧
      g.params = V02.AbiParameters.json []) ∧
    (∀ p0 rest, f.params = p0 :: rest →
      ((∀ p ∈ f.params, v01TagIsJson p.typ = v01TagIsJson p0.typ) →
        ∃ g, v0_1_function_to_v0_2 f = some g ∧
          v02ParamsIsJson g.params = v01TagIsJson p0.typ ∧
          v02ParamNames g.params = f.params.map (·.name)) ∧
      ((∃ p ∈ rest, v01TagIsJson p.typ ≠ v01TagIsJson p0.typ) →
        v0_1_function_to_v0_2 f = none)) := by
  constructor
  · intro hempty
    refine ⟨{ name := f.name, doc := f.doc, is_view := f.is_view, is_init := f.is_init,
              is_payable := f.is_payable, is_private := f.is_private,
              params := V02.AbiParameters.json [],
              callbacks := f.callbacks.map v0_1_abi_type_to_v0_2,
              callbacks_vec := f.callbacks_vec.map v0_1_abi_type_to_v0_2,
              result := f.result.map v0_1_abi_type_to_v0_2 }, ?_, rfl⟩
    simp only [v0_1_function_to_v0_2, hempty]
    rfl
  · intro p0 rest hcons
    constructor
    · intro huni
      cases hb : v01TagIsJson p0.typ with
      | true =>
        obtain ⟨args, hm, hn⟩ := mapM_json_of_uniform f.params
          (fun p hp => (huni p hp).trans hb)
        have hif : (f.params.head?.map (fun p => v01TagIsJson p.typ)).getD true = true := by
          rw [hcons]; exact hb
        refine ⟨{ name := f.name, doc := f.doc, is_view := f.is_view, is_init := f.is_init,
                  is_payable := f.is_payable, is_private := f.is_private,
                  params := V02.AbiParameters.json args,
                  callbacks := f.callbacks.map v0_1_abi_type_to_v0_2,
                  callbacks_vec := f.callbacks_vec.map v0_1_abi_type_to_v0_2,
                  result := f.result.map v0_1_abi_type_to_v0_2 }, ?_, ?_, ?_⟩
        · simp only [v0_1_function_to_v0_2, hif, reduceIte, hm]
          rfl
        · simp [v02ParamsIsJson, hb]
        · simpa [v02ParamNames] using hn
      | false =>
        obtain ⟨args, hm, hn⟩ := mapM_borsh_of_uniform f.params
          (fun p hp => (huni p hp).trans hb)
        have hif : (f.params.head?.map (fun p => v01TagIsJson p.typ)).getD true = false := by
          rw [hcons]; exact hb
        refine ⟨{ name := f.name, doc := f.doc, is_view := f.is_view, is_init := f.is_init,
                  is_payable := f.is_payable, is_private := f.is_private,
                  params := V02.AbiParameters.borsh args,
                  callbacks := f.callbacks.map v0_1_abi_type_to_v0_2,
                  callbacks_vec := f.callbacks_vec.map v0_1_abi_type_to_v0_2,
                  result := f.result.map v0_1_abi_type_to_v0_2 }, ?_, ?_, ?_⟩
        · simp only [v0_1_function_to_v0_2, hif, Bool.false_eq_true, reduceIte, hm]
          rfl
        · simp [v02ParamsIsJson, hb]
        · simpa [v02ParamNames] using hn
    · intro hmix
      obtain ⟨p, hp, hpne⟩ := hmix
      cases hb : v01TagIsJson p0.typ with
      | true =>
        have hpf : v01TagIsJson p.typ = false := by
          rw [hb] at hpne
          cases hpt : v01TagIsJson p.typ
          · rfl
          · rw [hpt] at hpne; exact absurd rfl hpne
        have hm := mapM_json_none_of_borsh f.params ⟨p, by simp [hcons, hp], hpf⟩
        have hif : (f.params.head?.map (fun p => v01TagIsJson p.typ)).getD true = true := by
          rw [hcons]; exact hb
        simp only [v0_1_function_to_v0_2, hif, reduceIte, hm]
        rfl
      | false =>
        have hpf : v01TagIsJson p.typ = true := by
          rw [hb] at hpne
          cases hpt : v01TagIsJson p.typ
          · rw [hpt] at hpne; exact absurd rfl hpne
          · rfl
        have hm := mapM_borsh_none_of_json f.params ⟨p, by simp [hcons, hp], hpf⟩
        have hif : (f.params.head?.map (fun p => v01TagIsJson p.typ)).getD true = false := by
          rw [hcons]; exact hb
        simp only [v0_1_function_to_v0_2, hif, Bool.false_eq_true, reduceIte, hm]
        rfl

/-- C2 counterexample: on a v0.1 function whose first parameter is
Json-tagged and whose second is Borsh-tagged, the migration crashes (the
`panic!` in `to_json_schema`, modelled as `none`); it produces no error
value at all — no `MixedParameterSerialization` error exists anywhere in
the code. -/
theorem v0_1_mixed_tags_crash_cx :
    v0_1_function_to_v0_2 exMixedFn = none ∧
    v0_1_to_v0_2 exMixedRoot = none :=
  ⟨rfl, rfl⟩

/-- C2 witness: the empty, uniformly-Json and mixed cases of
`v0_1_param_class_inference` at concrete functions. -/
theorem v0_1_param_class_inference_witness :
    (∃ g, v0_1_function_to_v0_2 exEmptyFn = some g ∧
      g.params = V02.AbiParameters.json []) ∧
    (∃ g, v0_1_function_to_v0_2 exJsonFn = some g ∧
      v02ParamsIsJson g.params =
        v01TagIsJson (V01.AbiParameter.mk "p1" (.json (.obj []))).typ ∧
      v02ParamNames g.params = exJsonFn.params.map (·.name)) ∧
    v0_1_function_to_v0_2 exMixedFn = none :=
  ⟨(v0_1_param_class_inference exEmptyFn).1 rfl,
   ((v0_1_param_class_inference exJsonFn).2 _ _ rfl).1 (by decide),
   ((v0_1_param_class_inference exMixedFn).2 _ _ rfl).2 (by decide)⟩

end NearAbi
